import Mathlib

/-
Shallow embedding of the Blender addon `import_texture_material.py`
(Import Texture Material, version 0.9.1).

The embedding translates the addon's `execute` pipeline into pure Lean
functions:

  * the `MAP` enum with its `namestr`, `is_colour` and
    `principled_bsdf_input_name` tables (source lines 70-111);
  * the filename regular expression `^.+_([a-zA-Z]+)_(\d+)k\..+$`
    (source line 191) as an executable parser `classify`, including the
    greedy-backtracking choice of the rightmost underscore for group 1;
  * the component-resolution loop over `os.listdir` (source lines 190-210)
    as `resolveComponents`, where the `assert this_size == img_size` at
    line 201 is modelled as the `InconsistentResolution` error;
  * the node-graph synthesis (source lines 215-415) as `buildPhase` /
    `executeModel`, over an explicit builder state of nodes, links,
    images, node groups and textures.  Mutable Blender collections
    (`bpy.data.materials`, `bpy.data.node_groups`, `bpy.data.images`,
    `bpy.data.textures`) become explicit lists threaded through the
    functions; Python dictionaries keyed by `MAP` become functions
    `MAP -> Option _`; a raised Python exception becomes the error side
    of `Except`, carrying the state at the moment the exception escapes.

Intentional abstractions (all irrelevant to the verified properties and
noted where they occur): 2-D node `location` layout hints are dropped;
socket default values on the constant `CombineXYZ` node are dropped;
Python's `.` regex class is modelled as "any character" (filenames are
assumed newline-free) and `\d` as the ASCII digits; host-side renaming
of colliding image/texture names is not modelled (group-name collisions,
which the source explicitly handles, are modelled by `uniquifyName`).
-/

namespace ITM

/-- MAP is the enum of map component names the addon knows how to use
(source lines 70-79).  Note the enum carries exactly one filename token
per member, its `value`. -/
inductive MAP
  | BUMP
  | DIFFUSE
  | DISPLACEMENT
  | NORMAL
  | ROUGHNESS
  | SPECULAR
  deriving DecidableEq, Repr

/-- namestr is the string that occurs in the filename for this image map:
the enum member values at source lines 73-78. -/
def MAP.namestr : MAP → String
  | .BUMP => "bump"
  | .DIFFUSE => "diff"
  | .DISPLACEMENT => "disp"
  | .NORMAL => "nor"
  | .ROUGHNESS => "rough"
  | .SPECULAR => "spec"

/-- is_colour mirrors `self in {MAP.DIFFUSE, MAP.SPECULAR}` (source lines 87-92). -/
def MAP.is_colour (m : MAP) : Bool :=
  decide (m = MAP.DIFFUSE) || decide (m = MAP.SPECULAR)

/-- principled_bsdf_input_name is the partial dictionary at source lines
94-109; `MAP.DISPLACEMENT` is absent from it (a lookup would raise
`KeyError`), which the embedding records as `none`. -/
def MAP.principled_bsdf_input_name : MAP → Option String
  | .BUMP => some "Normal"
  | .DIFFUSE => some "Base Color"
  | .ROUGHNESS => some "Roughness"
  | .NORMAL => some "Normal"
  | .SPECULAR => some "Specular"
  | .DISPLACEMENT => none

/-- by_namestr is the dictionary `dict((m.namestr, MAP[k]) ...)` built at
source lines 177-180: it maps each member's single token to the member. -/
def by_namestr (t : String) : Option MAP :=
  if t = "bump" then some MAP.BUMP
  else if t = "diff" then some MAP.DIFFUSE
  else if t = "disp" then some MAP.DISPLACEMENT
  else if t = "nor" then some MAP.NORMAL
  else if t = "rough" then some MAP.ROUGHNESS
  else if t = "spec" then some MAP.SPECULAR
  else none

/-- DispMode is the `use_displacement` enum property (source lines 153-165). -/
inductive DispMode
  | no
  | material
  | texture
  deriving DecidableEq, Repr

/-- Config collects the operator's boolean properties and the
displacement mode (source lines 123-165). -/
structure Config where
  use_diffuse : Bool
  use_specular : Bool
  use_normals : Bool
  use_bump : Bool
  use_roughness : Bool
  use_displacement : DispMode
  deriving DecidableEq, Repr

/-- cfgDefault is the operator's default configuration: every boolean
property defaults to True and `use_displacement` to "material". -/
def cfgDefault : Config :=
  ⟨true, true, true, true, true, DispMode.material⟩

/-- cfgNone disables every component (all booleans False, displacement "no"). -/
def cfgNone : Config :=
  ⟨false, false, false, false, false, DispMode.no⟩

/-- load_component is the dictionary at source lines 181-189 deciding
whether a map kind is wanted under the configuration. -/
def load_component (cfg : Config) : MAP → Bool
  | .DIFFUSE => cfg.use_diffuse
  | .SPECULAR => cfg.use_specular
  | .NORMAL => cfg.use_normals
  | .BUMP => cfg.use_bump
  | .ROUGHNESS => cfg.use_roughness
  | .DISPLACEMENT => decide (cfg.use_displacement ≠ DispMode.no)

/-- isAsciiLetter is the regex character class `[a-zA-Z]`. -/
def isAsciiLetter (c : Char) : Bool :=
  ('a' ≤ c && c ≤ 'z') || ('A' ≤ c && c ≤ 'Z')

/-- isAsciiDigit is the regex character class `\d` (ASCII digits). -/
def isAsciiDigit (c : Char) : Bool :=
  '0' ≤ c && c ≤ '9'

/-- natOfDigits is `int(...)` applied to the digit capture group. -/
def natOfDigits (ds : List Char) : Nat :=
  ds.foldl (fun a c => a * 10 + (c.toNat - 48)) 0

/-- matchTail matches the regex tail `([a-zA-Z]+)_(\d+)k\..+$` against the
characters after a candidate underscore: a nonempty maximal letter run,
an underscore, a nonempty maximal digit run, the literals `k` and `.`,
and a nonempty remainder.  (Because the letter class excludes `_` and the
digit class excludes `k`, the greedy runs admit no further backtracking.) -/
def matchTail (cs : List Char) : Option (List Char × Nat) :=
  if (cs.takeWhile isAsciiLetter).isEmpty then none
  else
    match cs.dropWhile isAsciiLetter with
    | '_' :: r2 =>
      if (r2.takeWhile isAsciiDigit).isEmpty then none
      else
        match r2.dropWhile isAsciiDigit with
        | 'k' :: '.' :: rest =>
          if rest.isEmpty then none
          else some (cs.takeWhile isAsciiLetter, natOfDigits (r2.takeWhile isAsciiDigit))
        | _ => none
    | _ => none

/-- goSearch scans the candidate positions for the `_` following the
greedy leading `.+` of `^.+_([a-zA-Z]+)_(\d+)k\..+$`.  Greediness means
the rightmost underscore whose tail matches wins, hence the recursive
call is preferred over the current position. -/
def goSearch : List Char → Option (List Char × Nat)
  | [] => none
  | c :: rest =>
    match goSearch rest with
    | some r => some r
    | none => if c = '_' then matchTail rest else none

/-- reSearchName is `re.search(name_pat, item)` for the anchored pattern
`^.+_([a-zA-Z]+)_(\d+)k\..+$` (source line 191): at least one character
must precede the underscore, so the scan starts after the first character. -/
def reSearchName (s : String) : Option (List Char × Nat) :=
  match s.toList with
  | [] => none
  | _ :: rest => goSearch rest

/-- classify returns the lower-cased group 1 (`match.group(1).lower()`,
source line 196) and the parsed group 2 (`int(match.group(2))`,
source line 197) when the filename matches, `none` otherwise. -/
def classify (item : String) : Option (String × Nat) :=
  match reSearchName item with
  | none => none
  | some (t, n) => some (String.mk (t.map Char.toLower), n)

/-- ResolveError is the failure of the resolution loop: the
`assert this_size == img_size` at source line 201 escaping `execute`,
which the specification names `InconsistentResolution`. -/
inductive ResolveError
  | InconsistentResolution
  deriving DecidableEq, Repr

/-- RState is the loop state of source lines 190-210: the `components`
dictionary (a map from MAP to the stored path) and the `img_size`
consistency variable. -/
structure RState where
  components : MAP → Option String
  img_size : Option Nat

/-- joinPath is `os.path.join(temp_dir, item)` on a POSIX host. -/
def joinPath (dir item : String) : String :=
  dir ++ "/" ++ item

/-- updatedComponents is the conditional dictionary update at source
lines 203-208: store the joined path under the matched kind when the
token is recognized and the kind is wanted (overwriting any earlier
entry, as Python dict assignment does), otherwise leave the dictionary
unchanged. -/
def updatedComponents (cfg : Config) (temp_dir : String) (st : RState) (namestr item : String) :
    MAP → Option String :=
  match by_namestr namestr with
  | some map =>
    if load_component cfg map then
      fun m => if m = map then some (joinPath temp_dir item) else st.components m
    else st.components
  | none => st.components

/-- processFile is one iteration of the `for item in os.listdir(temp_dir)`
loop (source lines 193-209): match the pattern, check the resolution for
consistency (the `assert` at line 201 precedes the alias lookup and the
enabled test; its failure is the InconsistentResolution error), then
record the path under the map kind if recognized and wanted. -/
def processFile (cfg : Config) (temp_dir : String) (st : RState) (item : String) :
    Except ResolveError RState :=
  match classify item with
  | none => Except.ok st
  | some (namestr, n) =>
    match st.img_size with
    | none => Except.ok ⟨updatedComponents cfg temp_dir st namestr item, some (n * 1024)⟩
    | some sz =>
      if n * 1024 = sz then
        Except.ok ⟨updatedComponents cfg temp_dir st namestr item, some sz⟩
      else Except.error ResolveError.InconsistentResolution

/-- resolveLoop folds `processFile` over the extracted file names,
stopping at the first failed consistency assertion. -/
def resolveLoop (cfg : Config) (temp_dir : String) : RState → List String → Except ResolveError RState
  | st, [] => Except.ok st
  | st, item :: rest =>
    match processFile cfg temp_dir st item with
    | Except.error e => Except.error e
    | Except.ok st2 => resolveLoop cfg temp_dir st2 rest

/-- resolveComponents is the whole resolution pass of source lines
190-210, started from an empty `components` dict and `img_size = None`. -/
def resolveComponents (cfg : Config) (temp_dir : String) (files : List String) :
    Except ResolveError RState :=
  resolveLoop cfg temp_dir ⟨fun _ => none, none⟩ files

/-- componentsOf projects the recorded path for a kind out of a
resolution result (`none` on failure). -/
def componentsOf (r : Except ResolveError RState) (m : MAP) : Option String :=
  match r with
  | Except.ok st => st.components m
  | Except.error _ => none

/-- Slot identifies a node socket the way the source does: either by name
(`inputs["Vector"]`) or by index (`inputs[0]`). -/
inductive Slot
  | named (s : String)
  | idx (n : Nat)
  deriving DecidableEq, Repr

/-- Node is one node of a node tree.  `imageName` is the name of the
bound image for `ShaderNodeTexImage` nodes, `groupName` the referenced
node group for `ShaderNodeGroup` nodes, `operation` the vector-math
operation where the source sets one.  The purely cosmetic 2-D `location`
assignments of the source are not modelled. -/
structure Node where
  id : Nat
  kind : String
  imageName : Option String
  groupName : Option String
  operation : Option String
  deriving DecidableEq, Repr

/-- Link is one directed edge `(source node, output slot) ->
(sink node, input slot)` created by `links.new`. -/
structure Link where
  srcNode : Nat
  srcSlot : Slot
  dstNode : Nat
  dstSlot : Slot
  deriving DecidableEq, Repr

/-- Image is one entry of `bpy.data.images` as configured by `load_image`
(source lines 238-247): synthetic name, source path, whether the colour
space was set to "Non-Color", and packing. -/
structure Image where
  name : String
  filepath : String
  nonColour : Bool
  packed : Bool
  deriving DecidableEq, Repr

/-- NodeGroup is one entry of `bpy.data.node_groups`: its name, the
automatically created interface sockets (types and assigned names), and
its internal nodes and links. -/
structure NodeGroup where
  name : String
  inputTypes : List String
  outputTypes : List String
  inputNames : List String
  outputNames : List String
  nodes : List Node
  links : List Link
  deriving DecidableEq, Repr

/-- TextureRes is one entry of `bpy.data.textures` created by
`bpy.data.textures.new(image.name, "IMAGE")` with `tex.image = image`
(source lines 409-413). -/
structure TextureRes where
  name : String
  imageName : String
  deriving DecidableEq, Repr

/-- RunError models the Python exceptions that can escape the body of
`execute`: a failed `subprocess.check_call` of `unar` (line 171), the
resolution assertion (line 201), `bpy.data.images.load` failing
(line 239), and a dictionary lookup miss.  None of these is the addon's
own `Failure` class, which is never raised, so none is caught by the
`except Failure` clause at line 416. -/
inductive RunError
  | ExtractionFailed (msg : String)
  | InconsistentRes
  | LoadFailed (path : String)
  | KeyError (s : String)
  deriving DecidableEq, Repr

/-- BState is the mutable state during graph synthesis: the material
tree's nodes and links, plus the process-wide `bpy.data` collections
(images, node groups, textures), the nonlocal `normal_mapping_group_name`
variable, and a counter providing host identities for new nodes. -/
structure BState where
  nodes : List Node
  links : List Link
  images : List Image
  groups : List NodeGroup
  group_name : String
  textures : List TextureRes
  nextId : Nat
  deriving Repr

/-- newNode is `material_tree.nodes.new(kind)` plus the source's
immediate attribute assignments, returning the node's identity. -/
def newNode (st : BState) (kind : String) (img grp : Option String) : Nat × BState :=
  (st.nextId,
    ⟨st.nodes ++ [⟨st.nextId, kind, img, grp, none⟩], st.links, st.images, st.groups,
      st.group_name, st.textures, st.nextId + 1⟩)

/-- addLink is `material_tree.links.new`, normalized to the direction
from output socket to input socket (the source passes the two sockets in
either order; Blender creates the same edge). -/
def addLink (st : BState) (sN : Nat) (sS : Slot) (dN : Nat) (dS : Slot) : BState :=
  ⟨st.nodes, st.links ++ [⟨sN, sS, dN, dS⟩], st.images, st.groups, st.group_name,
    st.textures, st.nextId⟩

/-- normal_mapping_group_name is the reserved node-group name at source
line 273. -/
def normal_mapping_group_name : String :=
  "texture_material_normal_mapping"

/-- normalMappingGroup is the node group built at source lines 296-357:
group input/output, the constant z vector, two cross products, a dot
product, a geometry node, a scale and an add realizing
`(V0 x V1) x V + (V0 . V1) V`.  The interface sockets are the ones
Blender auto-creates from the links (one VECTOR in, one VECTOR out),
renamed "In" and "Out" at lines 355-356.  The `(0,0,1)` socket defaults
of the CombineXYZ node are not modelled. -/
def normalMappingGroup (gname : String) : NodeGroup :=
  ⟨gname, ["VECTOR"], ["VECTOR"], ["In"], ["Out"],
    [⟨0, "NodeGroupInput", none, none, none⟩,
     ⟨1, "NodeGroupOutput", none, none, none⟩,
     ⟨2, "ShaderNodeCombineXYZ", none, none, none⟩,
     ⟨3, "ShaderNodeVectorMath", none, none, some "CROSS_PRODUCT"⟩,
     ⟨4, "ShaderNodeVectorMath", none, none, some "DOT_PRODUCT"⟩,
     ⟨5, "ShaderNodeNewGeometry", none, none, none⟩,
     ⟨6, "ShaderNodeVectorMath", none, none, some "CROSS_PRODUCT"⟩,
     ⟨7, "ShaderNodeVectorMath", none, none, some "SCALE"⟩,
     ⟨8, "ShaderNodeVectorMath", none, none, some "ADD"⟩],
    [⟨2, Slot.idx 0, 3, Slot.idx 0⟩,
     ⟨0, Slot.idx 0, 3, Slot.idx 1⟩,
     ⟨2, Slot.idx 0, 4, Slot.idx 0⟩,
     ⟨0, Slot.idx 0, 4, Slot.idx 1⟩,
     ⟨3, Slot.idx 0, 6, Slot.idx 0⟩,
     ⟨5, Slot.named "Normal", 6, Slot.idx 1⟩,
     ⟨5, Slot.named "Normal", 7, Slot.idx 0⟩,
     ⟨4, Slot.idx 1, 7, Slot.idx 2⟩,
     ⟨6, Slot.idx 0, 8, Slot.idx 0⟩,
     ⟨7, Slot.idx 0, 8, Slot.idx 1⟩,
     ⟨8, Slot.idx 0, 1, Slot.idx 0⟩]⟩

/-- lookupGroup is `bpy.data.node_groups[name]` guarded by the
membership test at source line 279 (Blender keeps names unique, so the
first entry with the name is the entry). -/
def lookupGroup (groups : List NodeGroup) (name : String) : Option NodeGroup :=
  groups.find? (fun g => decide (g.name = name))

/-- groupShapeOK is the structural validation at source lines 281-289:
exactly one input and one output socket, both of type VECTOR. -/
def groupShapeOK (g : NodeGroup) : Bool :=
  match g.inputTypes, g.outputTypes with
  | [a], [b] => decide (a = "VECTOR") && decide (b = "VECTOR")
  | _, _ => false

/-- uniquifyFrom searches suffixed candidate names `base.1`, `base.2`,
... for one not yet taken (Blender zero-pads the suffix; the padding is
immaterial here). -/
def uniquifyFrom (taken : List String) (base : String) : Nat → Nat → String
  | 0, n => base ++ "." ++ toString n
  | fuel + 1, n =>
    let cand := base ++ "." ++ toString n
    if cand ∈ taken then uniquifyFrom taken base fuel (n + 1) else cand

/-- uniquifyName models the host renaming `bpy.data.node_groups.new`
performs when the requested name is already taken (the source reads the
possibly renamed result back via `group.name`, line 303). -/
def uniquifyName (taken : List String) (base : String) : String :=
  if base ∈ taken then uniquifyFrom taken base (taken.length + 1) 1 else base

/-- normalMappingResolveGroup is the found-or-create part of
`add_normal_mapping_nodes` (source lines 278-304 and 359-360): look the
reserved name up, validate the shape (a mismatch is treated as absent),
and otherwise create the group under a host-uniquified name, updating
the nonlocal name variable.  Returns the resulting library, the updated
nonlocal `normal_mapping_group_name`, and the name of the group the new
`ShaderNodeGroup` node references. -/
def normalMappingResolveGroup (st : BState) : List NodeGroup × String × String :=
  match lookupGroup st.groups st.group_name with
  | some g =>
    if groupShapeOK g then (st.groups, st.group_name, g.name)
    else
      (st.groups ++
          [normalMappingGroup (uniquifyName (st.groups.map (fun g2 => g2.name)) st.group_name)],
        uniquifyName (st.groups.map (fun g2 => g2.name)) st.group_name,
        uniquifyName (st.groups.map (fun g2 => g2.name)) st.group_name)
  | none =>
    (st.groups ++
        [normalMappingGroup (uniquifyName (st.groups.map (fun g2 => g2.name)) st.group_name)],
      uniquifyName (st.groups.map (fun g2 => g2.name)) st.group_name,
      uniquifyName (st.groups.map (fun g2 => g2.name)) st.group_name)

/-- add_normal_mapping_nodes is the function at source lines 275-369:
resolve the reusable group through `normalMappingResolveGroup`, then
instance it as a `ShaderNodeGroup` node fed from the texture output.
Returns the new state and the group node's output terminal. -/
def add_normal_mapping_nodes (st : BState) (texN : Nat) (texS : Slot) :
    BState × Nat × Slot :=
  let r := normalMappingResolveGroup st
  let st0 : BState := ⟨st.nodes, st.links, st.images, r.1, r.2.1, st.textures, st.nextId⟩
  let (nid, st1) := newNode st0 "ShaderNodeGroup" none (some r.2.2)
  let st2 := addLink st1 texN texS nid (Slot.idx 0)
  (st2, nid, Slot.idx 0)

/-- add_bump_convert_nodes is the function at source lines 260-271: a
`ShaderNodeBump` node fed on "Height", returning its "Normal" output. -/
def add_bump_convert_nodes (st : BState) (srcN : Nat) (srcS : Slot) :
    BState × Nat × Slot :=
  let (bid, st1) := newNode st "ShaderNodeBump" none none
  let st2 := addLink st1 srcN srcS bid (Slot.named "Height")
  (st2, bid, Slot.named "Normal")

/-- mk_image is the image object configured by `load_image` (source lines
238-247): synthetic name `"<material_name>_<namestr>"`, Non-Color colour
space unless the kind is colour data, packed into the file. -/
def mk_image (material_name : String) (m : MAP) (path : String) : Image :=
  ⟨material_name ++ "_" ++ m.namestr, path, !m.is_colour, true⟩

/-- load_image is the inner function at source lines 238-247.
`loadOk` abstracts whether `bpy.data.images.load` succeeds on a path; on
failure the RuntimeError escapes with the state built so far.  A missing
`components[map]` entry would be a Python KeyError. -/
def load_image (loadOk : String → Bool) (material_name : String)
    (comps : MAP → Option String) (m : MAP) (st : BState) :
    Except (RunError × BState) (Image × BState) :=
  match comps m with
  | none => Except.error (RunError.KeyError "components", st)
  | some path =>
    if loadOk path then
      let img := mk_image material_name m path
      Except.ok (img,
        ⟨st.nodes, st.links, st.images ++ [img], st.groups, st.group_name, st.textures,
          st.nextId⟩)
    else Except.error (RunError.LoadFailed path, st)

/-- new_image_texture_node is the inner function at source lines 249-258:
load the image, create the `ShaderNodeTexImage` node bound to it, and
feed it from the fanout reroute. -/
def new_image_texture_node (loadOk : String → Bool) (material_name : String)
    (comps : MAP → Option String) (foId : Nat) (m : MAP) (st : BState) :
    Except (RunError × BState) (Nat × BState) :=
  match load_image loadOk material_name comps m st with
  | Except.error e => Except.error e
  | Except.ok (img, st1) =>
    let (tid, st2) := newNode st1 "ShaderNodeTexImage" (some img.name) none
    let st3 := addLink st2 foId (Slot.idx 0) tid (Slot.idx 0)
    Except.ok (tid, st3)

/-- wireMap is one iteration of the per-component loop at source lines
376-394: if the kind is present, create its image texture node, route
through the special conversion nodes for BUMP and NORMAL
(`add_special_nodes_for`, lines 371-375), and connect the resulting
terminal to the Principled BSDF input named by the kind. -/
def wireMap (loadOk : String → Bool) (material_name : String)
    (comps : MAP → Option String) (foId msId : Nat) (m : MAP) (st : BState) :
    Except (RunError × BState) BState :=
  match comps m with
  | none => Except.ok st
  | some _ =>
    match new_image_texture_node loadOk material_name comps foId m st with
    | Except.error e => Except.error e
    | Except.ok (tid, st1) =>
      let r : BState × Nat × Slot :=
        if m = MAP.BUMP then add_bump_convert_nodes st1 tid (Slot.named "Color")
        else if m = MAP.NORMAL then add_normal_mapping_nodes st1 tid (Slot.named "Color")
        else (st1, tid, Slot.named "Color")
      match m.principled_bsdf_input_name with
      | some inName => Except.ok (addLink r.1 r.2.1 r.2.2 msId (Slot.named inName))
      | none => Except.error (RunError.KeyError "principled_bsdf_input_name", r.1)

/-- wireAll folds `wireMap` over the loop's fixed kind order
`(DIFFUSE, SPECULAR, ROUGHNESS, NORMAL, BUMP)` (source line 376). -/
def wireAll (loadOk : String → Bool) (material_name : String)
    (comps : MAP → Option String) (foId msId : Nat) :
    List MAP → BState → Except (RunError × BState) BState
  | [], st => Except.ok st
  | m :: rest, st =>
    match wireMap loadOk material_name comps foId msId m st with
    | Except.error e => Except.error e
    | Except.ok st2 => wireAll loadOk material_name comps foId msId rest st2

/-- dispMaterialStep is the material-mode displacement branch (source
lines 398-407): when displacement mode is "material" and a displacement
component is present, add a texture node wired into the material
output's Displacement input and set the displacement method to "BOTH";
otherwise leave the method at its "BUMP" default. -/
def dispMaterialStep (cfg : Config) (material_name : String)
    (comps : MAP → Option String) (loadOk : String → Bool) (foId moId : Nat)
    (st9 : BState) : Except (RunError × BState) (BState × String) :=
  if cfg.use_displacement = DispMode.material ∧ (comps MAP.DISPLACEMENT).isSome = true then
    match new_image_texture_node loadOk material_name comps foId MAP.DISPLACEMENT st9 with
    | Except.error e => Except.error e
    | Except.ok (tid, stA) =>
      Except.ok (addLink stA tid (Slot.named "Color") moId (Slot.named "Displacement"), "BOTH")
  else Except.ok (st9, "BUMP")

/-- dispTextureStep is the texture-mode displacement branch (source
lines 409-413): load the displacement image and register it as a
free-standing texture resource. -/
def dispTextureStep (cfg : Config) (material_name : String)
    (comps : MAP → Option String) (loadOk : String → Bool) (r : BState × String) :
    Except (RunError × BState) (BState × String) :=
  if cfg.use_displacement = DispMode.texture ∧ (comps MAP.DISPLACEMENT).isSome = true then
    match load_image loadOk material_name comps MAP.DISPLACEMENT r.1 with
    | Except.error e => Except.error e
    | Except.ok (img, stC) =>
      Except.ok
        (⟨stC.nodes, stC.links, stC.images, stC.groups, stC.group_name,
          stC.textures ++ [⟨img.name, img.name⟩], stC.nextId⟩, r.2)
  else Except.ok r

/-- finishPhase is the tail of graph synthesis (source lines 395-413):
material output node wired from the shader, then the two displacement
branches.  Returns the final state and the material-level displacement
method. -/
def finishPhase (cfg : Config) (material_name : String)
    (comps : MAP → Option String) (loadOk : String → Bool) (foId msId : Nat)
    (st7 : BState) : Except (RunError × BState) (BState × String) :=
  let (moId, st8) := newNode st7 "ShaderNodeOutputMaterial" none none
  let st9 := addLink st8 msId (Slot.idx 0) moId (Slot.idx 0)
  (dispMaterialStep cfg material_name comps loadOk foId moId st9).bind
    (dispTextureStep cfg material_name comps loadOk)

/-- buildPhase is the whole graph synthesis for one material (source
lines 216-413), starting from the freshly created material whose default
nodes were removed (lines 216-223): the fixed backbone
TexCoord -> Mapping -> Reroute plus the Principled BSDF, then the
per-component loop, then `finishPhase`. -/
def buildPhase (cfg : Config) (material_name : String)
    (comps : MAP → Option String) (loadOk : String → Bool)
    (images : List Image) (groups : List NodeGroup) (textures : List TextureRes) :
    Except (RunError × BState) (BState × String) :=
  let st0 : BState := ⟨[], [], images, groups, normal_mapping_group_name, textures, 0⟩
  let (tcId, st1) := newNode st0 "ShaderNodeTexCoord" none none
  let (tmId, st2) := newNode st1 "ShaderNodeMapping" none none
  let st3 := addLink st2 tcId (Slot.named "UV") tmId (Slot.named "Vector")
  let (foId, st4) := newNode st3 "NodeReroute" none none
  let st5 := addLink st4 tmId (Slot.named "Vector") foId (Slot.idx 0)
  let (msId, st6) := newNode st5 "ShaderNodeBsdfPrincipled" none none
  (wireAll loadOk material_name comps foId msId
      [MAP.DIFFUSE, MAP.SPECULAR, MAP.ROUGHNESS, MAP.NORMAL, MAP.BUMP] st6).bind
    (finishPhase cfg material_name comps loadOk foId msId)

/-- MaterialObj is one entry of `bpy.data.materials`: its name, node
tree, and the cycles displacement method (default "BUMP", set to "BOTH"
at source line 405). -/
structure MaterialObj where
  name : String
  nodes : List Node
  links : List Link
  displacement_method : String
  deriving DecidableEq, Repr

/-- Host is the `bpy.data` state visible to the addon. -/
structure Host where
  materials : List MaterialObj
  node_groups : List NodeGroup
  images : List Image
  textures : List TextureRes
  deriving DecidableEq, Repr

/-- host0 is an empty host document. -/
def host0 : Host :=
  ⟨[], [], [], []⟩

/-- commitHost reflects the builder state back into the host: the
material created at source line 216 (whose tree was mutated in place)
plus the updated shared collections.  It is also what remains visible
when an exception escapes mid-build. -/
def commitHost (host : Host) (material_name dmethod : String) (st : BState) : Host :=
  ⟨host.materials ++ [⟨material_name, st.nodes, st.links, dmethod⟩], st.groups, st.images,
    st.textures⟩

/-- basenamePy is `os.path.basename` on a POSIX host. -/
def basenamePy (s : String) : String :=
  String.mk ((s.toList.reverse.takeWhile (fun c => decide (c ≠ '/'))).reverse)

/-- splitextStem is the first component of `os.path.splitext`: drop the
last extension, where an extension dot needs some non-dot character
before it (so ".bashrc" keeps its name). -/
def splitextStem (s : String) : String :=
  let cs := s.toList
  match cs.reverse.findIdx? (fun c => decide (c = '.')) with
  | none => s
  | some p =>
    let i := cs.length - 1 - p
    if (cs.take i).any (fun c => decide (c ≠ '.')) then String.mk (cs.take i) else s

/-- executeModel is the whole `execute` method (source lines 167-431):
extraction (abstracted to its outcome), the resolution loop, the
normal-over-bump preference pop at lines 211-214, material creation, and
graph synthesis.  Errors carry the host state left behind at the moment
the exception escapes; since the addon's `Failure` is never raised, the
`except Failure` clause never fires and every error propagates. -/
def executeModel (cfg : Config) (filepath temp_dir : String)
    (extracted : Except String (List String)) (loadOk : String → Bool)
    (host : Host) : Except (RunError × Host) (Host × String) :=
  match extracted with
  | Except.error msg => Except.error (RunError.ExtractionFailed msg, host)
  | Except.ok files =>
    match resolveComponents cfg temp_dir files with
    | Except.error ResolveError.InconsistentResolution =>
      Except.error (RunError.InconsistentRes, host)
    | Except.ok rst =>
      let comps : MAP → Option String :=
        if (rst.components MAP.NORMAL).isSome = true then
          fun m => if m = MAP.BUMP then none else rst.components m
        else rst.components
      let material_name := splitextStem (basenamePy filepath)
      match buildPhase cfg material_name comps loadOk host.images host.node_groups
          host.textures with
      | Except.error (e, est) => Except.error (e, commitHost host material_name "BUMP" est)
      | Except.ok (stD, dmethod) =>
        Except.ok (commitHost host material_name dmethod stD, "FINISHED")

/-- runStatus projects the returned status string of a run. -/
def runStatus (r : Except (RunError × Host) (Host × String)) : Option String :=
  match r with
  | Except.ok (_, s) => some s
  | Except.error _ => none

/-- runErrorOf projects the escaped error of a run. -/
def runErrorOf (r : Except (RunError × Host) (Host × String)) : Option RunError :=
  match r with
  | Except.ok _ => none
  | Except.error (e, _) => some e

/-- runMaterialCount counts the materials left in the host after a run,
whether it finished or aborted. -/
def runMaterialCount (r : Except (RunError × Host) (Host × String)) : Nat :=
  match r with
  | Except.ok (h, _) => h.materials.length
  | Except.error (_, h) => h.materials.length

/-- kindHit decides whether processing a file name would store a path
under kind `k`: its name matches the pattern, its token maps to `k`, and
`k` is wanted under the configuration. -/
def kindHit (cfg : Config) (k : MAP) (f : String) : Bool :=
  match classify f with
  | some (t, _) => decide (by_namestr t = some k) && load_component cfg k
  | none => false

/-- normalLinks filters the edges whose sink is the "Normal" input of
the node with identity `sid` (the Principled BSDF in a built material). -/
def normalLinks (sid : Nat) (links : List Link) : List Link :=
  links.filter (fun l => decide (l.dstNode = sid ∧ l.dstSlot = Slot.named "Normal"))

/-- StepOut relates a builder state to the state after a synthesis step
that must not touch the shader's Normal input: edges into the Normal
input are unchanged, old links and nodes survive, and any new node's
bound image (if any) is named `"<mat>_<x>"` for one of the listed
tokens x. -/
def StepOut (mat : String) (names : List String) (sid : Nat) (st st2 : BState) : Prop :=
  normalLinks sid st2.links = normalLinks sid st.links ∧
  (∀ l ∈ st.links, l ∈ st2.links) ∧
  (∀ nd ∈ st.nodes, nd ∈ st2.nodes) ∧
  (∀ nd ∈ st2.nodes, nd ∈ st.nodes ∨ nd.imageName = none ∨
    ∃ x ∈ names, nd.imageName = some (mat ++ "_" ++ x)) ∧
  (∀ img ∈ st2.images, img ∈ st.images ∨ ∃ x ∈ names, img.name = mat ++ "_" ++ x)

/-- mkRun is the builder state at the start of one synthesis run: the
nonlocal group-name variable is re-initialized to the reserved name
(source line 273 executes anew on every `execute` call), while the
node-group library persists across runs. -/
def mkRun (groups : List NodeGroup) : BState :=
  ⟨[], [], [], groups, normal_mapping_group_name, [], 0⟩

/-- groupsAfter is the node-group library after one synthesis run has
instantiated the normal-mapping subgraph once against it. -/
def groupsAfter (groups : List NodeGroup) : List NodeGroup :=
  (add_normal_mapping_nodes (mkRun groups) 0 (Slot.named "Color")).1.groups

/-- backboneState is the builder state after the fixed backbone of
source lines 224-236: TexCoord (0) -> Mapping (1) -> Reroute fanout (2)
and the Principled BSDF shader (3). -/
def backboneState (images : List Image) (groups : List NodeGroup)
    (textures : List TextureRes) : BState :=
  ⟨[⟨0, "ShaderNodeTexCoord", none, none, none⟩,
    ⟨1, "ShaderNodeMapping", none, none, none⟩,
    ⟨2, "NodeReroute", none, none, none⟩,
    ⟨3, "ShaderNodeBsdfPrincipled", none, none, none⟩],
   [⟨0, Slot.named "UV", 1, Slot.named "Vector"⟩,
    ⟨1, Slot.named "Vector", 2, Slot.idx 0⟩],
   images, groups, normal_mapping_group_name, textures, 4⟩

/-- C9: for every component whose image is loaded, the image resource is
tagged Non-Color exactly when the kind is neither Diffuse nor Specular
(`is_colour` holds exactly for those two), and it receives the synthetic
name `"<materialName>_<token>"`. -/
theorem C9_colour_space_and_name (loadOk : String → Bool) (material_name : String)
    (comps : MAP → Option String) (m : MAP) (path : String) (st : BState)
    (hpath : comps m = some path) (hok : loadOk path = true) :
    load_image loadOk material_name comps m st =
      Except.ok (mk_image material_name m path,
        ⟨st.nodes, st.links, st.images ++ [mk_image material_name m path], st.groups,
          st.group_name, st.textures, st.nextId⟩) ∧
    (mk_image material_name m path).name = material_name ++ "_" ++ m.namestr ∧
    ((mk_image material_name m path).nonColour = true ↔
      (m ≠ MAP.DIFFUSE ∧ m ≠ MAP.SPECULAR)) := by
  refine ⟨?_, rfl, ?_⟩
  · simp [load_image, hpath, hok]
  · cases m <;> simp [mk_image, MAP.is_colour]

/-- C9 witness: loading a present normal map succeeds and the image is
tagged Non-Color. -/
theorem C9_witness :
    ∃ r, load_image (fun _ => true) "mat" (fun _ => some "p") MAP.NORMAL
        ⟨[], [], [], [], "g", [], 0⟩ = Except.ok r ∧ r.1.nonColour = true := by
  have h := C9_colour_space_and_name (fun _ => true) "mat" (fun _ => some "p") MAP.NORMAL "p"
    ⟨[], [], [], [], "g", [], 0⟩ rfl rfl
  exact ⟨_, h.1, h.2.2.mpr ⟨by decide, by decide⟩⟩

/-- C6 counterexample: the claim's extra aliases `col`, `normal`, `nrm`,
`rgh`, `roughness` and `met` are not recognized by the code's
token-to-MAP dictionary, which carries only one token per kind. -/
theorem C6_counterexample :
    by_namestr "col" = none ∧ by_namestr "normal" = none ∧ by_namestr "nrm" = none ∧
    by_namestr "rgh" = none ∧ by_namestr "roughness" = none ∧ by_namestr "met" = none := by
  decide

/-- C6 amended: the recognized alias sets are exactly the singletons
bump, diff, disp, nor, rough, spec; the matched token is the lower-cased
capture group (case-insensitive matching); and a file whose token maps
to no kind is silently ignored (its processing leaves the recorded
components unchanged). -/
theorem C6_alias_sets :
    (∀ t k, by_namestr t = some k ↔ t = MAP.namestr k) ∧
    (∀ item tok n, classify item = some (tok, n) →
      ∃ t0, reSearchName item = some (t0, n) ∧ tok = String.mk (t0.map Char.toLower)) ∧
    (∀ cfg td st item tok n st2, classify item = some (tok, n) → by_namestr tok = none →
      processFile cfg td st item = Except.ok st2 → st2.components = st.components) := by
  refine ⟨?_, ?_, ?_⟩
  · intro t k
    constructor
    · intro h
      simp only [by_namestr] at h
      split_ifs at h with h1 h2 h3 h4 h5 h6
      · injection h with h; subst h; exact h1
      · injection h with h; subst h; exact h2
      · injection h with h; subst h; exact h3
      · injection h with h; subst h; exact h4
      · injection h with h; subst h; exact h5
      · injection h with h; subst h; exact h6
    · intro h
      subst h
      cases k <;> decide
  · intro item tok n h
    simp only [classify] at h
    cases hr : reSearchName item with
    | none => rw [hr] at h; exact absurd h (by simp)
    | some r =>
      rw [hr] at h
      obtain ⟨t0, n0⟩ := r
      simp only [Option.some.injEq, Prod.mk.injEq] at h
      obtain ⟨h1, h2⟩ := h
      subst h2
      exact ⟨t0, rfl, h1.symm⟩
  · intro cfg td st item tok n st2 hc hnone hok
    simp only [processFile, updatedComponents, hc, hnone] at hok
    cases hsz : st.img_size with
    | none =>
      rw [hsz] at hok
      simp only [Except.ok.injEq] at hok
      rw [← hok]
    | some sz =>
      rw [hsz] at hok
      by_cases hq : n * 1024 = sz
      · simp only [hq, if_true] at hok
        simp only [Except.ok.injEq] at hok
        rw [← hok]
      · simp only [hq, if_false] at hok
        exact absurd hok (by simp)

/-- C6 witness: the singleton alias "diff" maps to Diffuse. -/
theorem C6_witness : by_namestr "diff" = some MAP.DIFFUSE :=
  (C6_alias_sets.1 "diff" MAP.DIFFUSE).mpr rfl

/-- C5 counterexample: a filename with a recognized token but no
`_<digits>k` group does not match the code's pattern at all (the claim
asserts it classifies like the digit-bearing form), while the
digit-bearing form of the same token classifies. -/
theorem C5_counterexample :
    classify "rock_diff.png" = none ∧ classify "rock_diff_2k.png" = some ("diff", 2) := by
  constructor
  · rfl
  · rfl

/-- matchTail only succeeds on `<letters>_<digits>k.<nonempty>`. -/
theorem matchTail_sound (cs t : List Char) (n : Nat) (h : matchTail cs = some (t, n)) :
    ∃ d e, cs = t ++ '_' :: (d ++ 'k' :: '.' :: e) ∧ t ≠ [] ∧
      (∀ c ∈ t, isAsciiLetter c = true) ∧ d ≠ [] ∧ (∀ c ∈ d, isAsciiDigit c = true) ∧
      e ≠ [] ∧ n = natOfDigits d := by
  unfold matchTail at h
  split at h
  · exact absurd h (by simp)
  · rename_i h1
    split at h
    · rename_i r2 hdw
      split at h
      · exact absurd h (by simp)
      · rename_i h2
        split at h
        · rename_i rest hr3
          split at h
          · exact absurd h (by simp)
          · rename_i h3
            simp only [Option.some.injEq, Prod.mk.injEq] at h
            obtain ⟨ht, hn⟩ := h
            subst ht
            refine ⟨r2.takeWhile isAsciiDigit, rest, ?_, ?_, ?_, ?_, ?_, ?_, hn.symm⟩
            · conv_lhs => rw [← List.takeWhile_append_dropWhile isAsciiLetter cs]
              rw [hdw]
              congr 1
              congr 1
              conv_lhs => rw [← List.takeWhile_append_dropWhile isAsciiDigit r2]
              rw [hr3]
            · simpa using h1
            · intro c hc
              exact List.mem_takeWhile_imp hc
            · simpa using h2
            · intro c hc
              exact List.mem_takeWhile_imp hc
            · simpa using h3
        · exact absurd h (by simp)
    · exact absurd h (by simp)

/-- goSearch only succeeds when the character list splits at some
underscore whose tail matches the rigid part of the pattern. -/
theorem goSearch_sound (cs : List Char) (t : List Char) (n : Nat)
    (h : goSearch cs = some (t, n)) :
    ∃ pre post, cs = pre ++ '_' :: post ∧ matchTail post = some (t, n) := by
  induction cs with
  | nil => exact absurd h (by simp [goSearch])
  | cons c rest ih =>
    rw [goSearch] at h
    cases hr : goSearch rest with
    | some r =>
      rw [hr] at h
      have h2 : some r = some (t, n) := h
      obtain ⟨pre, post, hpre, hm⟩ := ih (hr.trans h2)
      exact ⟨c :: pre, post, by rw [hpre]; rfl, hm⟩
    | none =>
      rw [hr] at h
      have h2 : (if c = '_' then matchTail rest else none) = some (t, n) := h
      by_cases hc : c = '_'
      · subst hc
        rw [if_pos rfl] at h2
        exact ⟨[], rest, rfl, h2⟩
      · rw [if_neg hc] at h2
        exact absurd h2 (by simp)

/-- C5 amended: the `_<digits>k` segment of the filename grammar is
mandatory, not optional: every name that classifies decomposes as
`<prefix>_<letters>_<digits>k.<ext>` with all parts nonempty, the token
being the lower-cased letter group and the number the parsed digits; a
name with a recognized token but no digit group therefore never
classifies and is ignored. -/
theorem C5_resolution_group_mandatory (item tok : String) (n : Nat)
    (h : classify item = some (tok, n)) :
    ∃ p t d e, item.toList = p ++ '_' :: (t ++ '_' :: (d ++ 'k' :: '.' :: e)) ∧
      p ≠ [] ∧ t ≠ [] ∧ (∀ c ∈ t, isAsciiLetter c = true) ∧ d ≠ [] ∧
      (∀ c ∈ d, isAsciiDigit c = true) ∧ e ≠ [] ∧
      tok = String.mk (t.map Char.toLower) ∧ n = natOfDigits d := by
  simp only [classify] at h
  cases hr : reSearchName item with
  | none => rw [hr] at h; exact absurd h (by simp)
  | some r =>
    rw [hr] at h
    obtain ⟨t0, n0⟩ := r
    simp only [Option.some.injEq, Prod.mk.injEq] at h
    obtain ⟨h1, h2⟩ := h
    subst h2
    unfold reSearchName at hr
    cases hcs : item.toList with
    | nil => rw [hcs] at hr; exact absurd hr (by simp)
    | cons c rest =>
      rw [hcs] at hr
      obtain ⟨pre, post, hsplit, hm⟩ := goSearch_sound rest t0 _ hr
      obtain ⟨d, e, hpost, ht, hta, hd, hda, he, hn⟩ := matchTail_sound post t0 _ hm
      refine ⟨c :: pre, t0, d, e, ?_, by simp, ht, hta, hd, hda, he, h1.symm, hn⟩
      rw [hsplit, hpost]
      rfl

/-- C5 amended witness: a digit-bearing name decomposes as required. -/
theorem C5_witness :
    ∃ p t d e, ("a_nor_2k.png").toList = p ++ '_' :: (t ++ '_' :: (d ++ 'k' :: '.' :: e)) ∧
      p ≠ [] ∧ t ≠ [] ∧ (∀ c ∈ t, isAsciiLetter c = true) ∧ d ≠ [] ∧
      (∀ c ∈ d, isAsciiDigit c = true) ∧ e ≠ [] ∧
      "nor" = String.mk (t.map Char.toLower) ∧ 2 = natOfDigits d :=
  C5_resolution_group_mandatory "a_nor_2k.png" "nor" 2 (by rfl)

/-- processFile inversion: a successful step on a matching file sets the
state to the conditional component update with the file's size recorded,
and the file's size agreed with any size already established. -/
theorem processFile_ok_inv (cfg : Config) (td : String) (st st2 : RState)
    (item tok : String) (n : Nat)
    (h : processFile cfg td st item = Except.ok st2)
    (hc : classify item = some (tok, n)) :
    st2 = ⟨updatedComponents cfg td st tok item, some (n * 1024)⟩ ∧
      (∀ sz, st.img_size = some sz → n * 1024 = sz) := by
  unfold processFile at h
  simp only [hc] at h
  cases hs : st.img_size with
  | none =>
    simp only [hs] at h
    injection h with h
    refine ⟨h.symm, ?_⟩
    intro sz2 hsz2
    exact absurd hsz2 (by simp)
  | some sz =>
    simp only [hs] at h
    by_cases hq : n * 1024 = sz
    · rw [if_pos hq] at h
      injection h with h
      refine ⟨?_, ?_⟩
      · rw [← h, hq]
      · intro sz2 hsz2
        injection hsz2 with hsz2
        rw [← hsz2]
        exact hq
    · rw [if_neg hq] at h
      exact absurd h (by simp)

/-- resolveLoop distributes over list append. -/
theorem resolveLoop_append (cfg : Config) (td : String) (xs ys : List String) :
    ∀ st, resolveLoop cfg td st (xs ++ ys) =
      match resolveLoop cfg td st xs with
      | Except.error e => Except.error e
      | Except.ok st2 => resolveLoop cfg td st2 ys := by
  induction xs with
  | nil => intro st; rfl
  | cons x xs ih =>
    intro st
    simp only [List.cons_append, resolveLoop]
    cases h : processFile cfg td st x with
    | error e => rfl
    | ok st1 => exact ih st1

/-- An established image size survives a successful rest of the loop. -/
theorem resolveLoop_size_mono (cfg : Config) (td : String) :
    ∀ (fs : List String) (st st2 : RState) (s : Nat),
      resolveLoop cfg td st fs = Except.ok st2 → st.img_size = some s →
      st2.img_size = some s := by
  intro fs
  induction fs with
  | nil =>
    intro st st2 s h hs
    injection h with h
    rw [← h]
    exact hs
  | cons item rest ih =>
    intro st st2 s h hs
    rw [resolveLoop] at h
    cases hp : processFile cfg td st item with
    | error e => rw [hp] at h; exact absurd h (by simp)
    | ok st1 =>
      rw [hp] at h
      cases hc : classify item with
      | none =>
        have : st1 = st := by
          unfold processFile at hp
          rw [hc] at hp
          injection hp with hp
          exact hp.symm
        exact ih st1 st2 s h (this ▸ hs)
      | some r =>
        obtain ⟨tok, n⟩ := r
        obtain ⟨h1, h2⟩ := processFile_ok_inv cfg td st st1 item tok n hp hc
        have hn : n * 1024 = s := h2 s hs
        refine ih st1 st2 s h ?_
        rw [h1, hn]

/-- On a successful run, every matching file's declared size equals the
final established size. -/
theorem resolveLoop_size_matched (cfg : Config) (td : String) :
    ∀ (fs : List String) (st st2 : RState),
      resolveLoop cfg td st fs = Except.ok st2 →
      ∀ f ∈ fs, ∀ tok n, classify f = some (tok, n) → st2.img_size = some (n * 1024) := by
  intro fs
  induction fs with
  | nil => intro st st2 h f hf; exact absurd hf (by simp)
  | cons item rest ih =>
    intro st st2 h f hf tok n hc
    rw [resolveLoop] at h
    cases hp : processFile cfg td st item with
    | error e => rw [hp] at h; exact absurd h (by simp)
    | ok st1 =>
      rw [hp] at h
      rcases List.mem_cons.mp hf with rfl | hfr
      · obtain ⟨h1, _⟩ := processFile_ok_inv cfg td st st1 f tok n hp hc
        exact resolveLoop_size_mono cfg td rest st1 st2 (n * 1024) h (by rw [h1])
      · exact ih st1 st2 h f hfr tok n hc

/-- C4: two files whose names carry different resolution digit groups
make the whole resolution fail with InconsistentResolution, regardless
of enumeration order: the first hint establishes `img_size` and every
later hint must equal it exactly. -/
theorem C4_inconsistent_resolution (cfg : Config) (td : String) (files : List String)
    (f1 f2 t1 t2 : String) (n1 n2 : Nat)
    (h1 : f1 ∈ files) (h2 : f2 ∈ files)
    (hc1 : classify f1 = some (t1, n1)) (hc2 : classify f2 = some (t2, n2))
    (hne : n1 ≠ n2) :
    resolveComponents cfg td files = Except.error ResolveError.InconsistentResolution := by
  cases h : resolveComponents cfg td files with
  | ok st2 =>
    have e1 := resolveLoop_size_matched cfg td files _ st2 h f1 h1 t1 n1 hc1
    have e2 := resolveLoop_size_matched cfg td files _ st2 h f2 h2 t2 n2 hc2
    rw [e1] at e2
    injection e2 with e2
    exact absurd (Nat.eq_of_mul_eq_mul_right (by norm_num) e2) hne
  | error e => cases e; rfl

/-- C4 witness: an archive mixing a 2k and a 4k file fails. -/
theorem C4_witness :
    resolveComponents cfgDefault "T" ["a_nor_2k.png", "b_nor_4k.png"] =
      Except.error ResolveError.InconsistentResolution :=
  C4_inconsistent_resolution cfgDefault "T" ["a_nor_2k.png", "b_nor_4k.png"]
    "a_nor_2k.png" "b_nor_4k.png" "nor" "nor" 2 4 (by simp) (by simp) (by rfl) (by rfl)
    (by decide)

/-- C10: the archive-wide resolution-consistency check applies to every
file whose name matches the pattern, even when its token matches no
alias or its component is disabled by the configuration (the size
comparison precedes the alias lookup and the enabled test), so a
mismatched auxiliary file still aborts the run. -/
theorem C10_size_check_precedes_alias (cfg : Config) (td : String) (files : List String)
    (f1 f2 t1 t2 : String) (n1 n2 : Nat)
    (h1 : f1 ∈ files) (h2 : f2 ∈ files)
    (hc1 : classify f1 = some (t1, n1)) (hc2 : classify f2 = some (t2, n2))
    (haux : by_namestr t2 = none ∨ ∀ k, by_namestr t2 = some k → load_component cfg k = false)
    (hne : n1 ≠ n2) :
    resolveComponents cfg td files = Except.error ResolveError.InconsistentResolution := by
  cases h : resolveComponents cfg td files with
  | ok st2 =>
    have e1 := resolveLoop_size_matched cfg td files _ st2 h f1 h1 t1 n1 hc1
    have e2 := resolveLoop_size_matched cfg td files _ st2 h f2 h2 t2 n2 hc2
    rw [e1] at e2
    injection e2 with e2
    exact absurd (Nat.eq_of_mul_eq_mul_right (by norm_num) e2) hne
  | error e => cases e; rfl

/-- C10 witness: with every component disabled, a preview file whose
token matches no alias still aborts the run on a size mismatch. -/
theorem C10_witness :
    resolveComponents cfgNone "T" ["a_diff_2k.png", "b_preview_4k.png"] =
      Except.error ResolveError.InconsistentResolution :=
  C10_size_check_precedes_alias cfgNone "T" ["a_diff_2k.png", "b_preview_4k.png"]
    "a_diff_2k.png" "b_preview_4k.png" "diff" "preview" 2 4 (by simp) (by simp)
    (by rfl) (by rfl) (Or.inl (by rfl)) (by decide)

/-- C3 counterexample: with two files of the same kind, the recorded
path is the later file's, not the first occurrence's as claimed (Python
dict assignment overwrites). -/
theorem C3_counterexample :
    componentsOf (resolveComponents cfgDefault "T" ["a_diff_1k.png", "b_diff_1k.png"])
        MAP.DIFFUSE = some "T/b_diff_1k.png" ∧
    componentsOf (resolveComponents cfgDefault "T" ["a_diff_1k.png", "b_diff_1k.png"])
        MAP.DIFFUSE ≠ some "T/a_diff_1k.png" := by
  constructor
  · rfl
  · intro h
    rw [show componentsOf (resolveComponents cfgDefault "T"
        ["a_diff_1k.png", "b_diff_1k.png"]) MAP.DIFFUSE = some "T/b_diff_1k.png" from rfl] at h
    injection h with h
    exact absurd h (by decide)

/-- A component kind untouched by the update keeps its entry. -/
theorem updatedComponents_preserve (cfg : Config) (td : String) (st : RState)
    (tok item : String) (k : MAP)
    (hmiss : ¬(by_namestr tok = some k ∧ load_component cfg k = true)) :
    updatedComponents cfg td st tok item k = st.components k := by
  cases hb : by_namestr tok with
  | none => simp [updatedComponents, hb]
  | some k2 =>
    by_cases hl : load_component cfg k2 = true
    · simp only [updatedComponents, hb, hl, if_true]
      by_cases hkk : k = k2
      · subst hkk
        exact absurd ⟨hb, hl⟩ hmiss
      · simp [hkk]
    · simp [updatedComponents, hb, hl]

/-- A hit stores the joined path under the kind. -/
theorem updatedComponents_hit (cfg : Config) (td : String) (st : RState)
    (tok item : String) (k : MAP)
    (hb : by_namestr tok = some k) (hl : load_component cfg k = true) :
    updatedComponents cfg td st tok item k = some (joinPath td item) := by
  simp [updatedComponents, hb, hl]

/-- A successful tail of the loop containing no file that hits kind `k`
leaves the entry for `k` unchanged. -/
theorem resolveLoop_preserve (cfg : Config) (td : String) (k : MAP) :
    ∀ (fs : List String) (st st2 : RState),
      resolveLoop cfg td st fs = Except.ok st2 →
      (∀ f ∈ fs, kindHit cfg k f = false) →
      st2.components k = st.components k := by
  intro fs
  induction fs with
  | nil =>
    intro st st2 h hmiss
    injection h with h
    rw [← h]
  | cons item rest ih =>
    intro st st2 h hmiss
    rw [resolveLoop] at h
    cases hp : processFile cfg td st item with
    | error e => rw [hp] at h; exact absurd h (by simp)
    | ok st1 =>
      rw [hp] at h
      have htail := ih st1 st2 h (fun f hf => hmiss f (List.mem_cons_of_mem item hf))
      rw [htail]
      cases hc : classify item with
      | none =>
        have : st1 = st := by
          unfold processFile at hp
          rw [hc] at hp
          injection hp with hp
          exact hp.symm
        rw [this]
      | some r =>
        obtain ⟨tok, n⟩ := r
        obtain ⟨h1, _⟩ := processFile_ok_inv cfg td st st1 item tok n hp hc
        rw [h1]
        refine updatedComponents_preserve cfg td st tok item k ?_
        intro ⟨hbk, hlk⟩
        have := hmiss item (by simp)
        simp only [kindHit, hc] at this
        rw [hbk] at this
        simp [hlk] at this

/-- C3 amended: at most one path is recorded per kind (the components
dictionary is keyed by kind), but among several files resolving to the
same kind the LAST occurrence in enumeration order wins, not the first:
a later hit overwrites the stored path, and an occurrence followed only
by non-hits determines the final entry. -/
theorem C3_last_occurrence_wins (cfg : Config) (td : String) (fs rest : List String)
    (item tok : String) (n : Nat) (k : MAP) (st2 : RState)
    (hok : resolveComponents cfg td (fs ++ item :: rest) = Except.ok st2)
    (hc : classify item = some (tok, n)) (hb : by_namestr tok = some k)
    (hl : load_component cfg k = true)
    (hrest : ∀ f ∈ rest, kindHit cfg k f = false) :
    st2.components k = some (joinPath td item) := by
  unfold resolveComponents at hok
  rw [resolveLoop_append] at hok
  cases hA : resolveLoop cfg td ⟨fun _ => none, none⟩ fs with
  | error e => rw [hA] at hok; exact absurd hok (by simp)
  | ok stA =>
    rw [hA] at hok
    have hok2 : resolveLoop cfg td stA (item :: rest) = Except.ok st2 := hok
    rw [resolveLoop] at hok2
    cases hp : processFile cfg td stA item with
    | error e => rw [hp] at hok2; exact absurd hok2 (by simp)
    | ok stB =>
      rw [hp] at hok2
      have hok3 : resolveLoop cfg td stB rest = Except.ok st2 := hok2
      have hpres := resolveLoop_preserve cfg td k rest stB st2 hok3 hrest
      rw [hpres]
      obtain ⟨h1, _⟩ := processFile_ok_inv cfg td stA stB item tok n hp hc
      rw [h1]
      exact updatedComponents_hit cfg td stA tok item k hb hl

/-- A name that no existing group carries. -/
theorem not_mem_names_of_lookup_none (groups : List NodeGroup) (name : String)
    (h : lookupGroup groups name = none) :
    ¬ name ∈ groups.map (fun g => g.name) := by
  intro hmem
  obtain ⟨g, hg, hgn⟩ := List.mem_map.mp hmem
  have hfind := List.find?_eq_none.mp h g hg
  simp [hgn] at hfind

/-- C2: running graph synthesis twice against the same node-group
library creates exactly one normal-rotation subgraph definition: when
the reserved name is absent, the first run creates the group under that
name and the second run finds it, validates its shape and reuses it,
leaving the library unchanged; a registered group that passes validation
is reused as-is; a registered group that fails validation is treated as
absent, and a fresh group is appended without mutating or deleting the
mismatched definition. -/
theorem C2_idempotent_group_creation :
    (∀ groups, lookupGroup groups normal_mapping_group_name = none →
      groupsAfter groups = groups ++ [normalMappingGroup normal_mapping_group_name] ∧
      groupsAfter (groupsAfter groups) =
        groups ++ [normalMappingGroup normal_mapping_group_name]) ∧
    (∀ groups g, lookupGroup groups normal_mapping_group_name = some g →
      groupShapeOK g = true → groupsAfter groups = groups) ∧
    (∀ groups g, lookupGroup groups normal_mapping_group_name = some g →
      groupShapeOK g = false →
      ∃ nm, groupsAfter groups = groups ++ [normalMappingGroup nm]) := by
  have hshapeOK : groupShapeOK (normalMappingGroup normal_mapping_group_name) = true := rfl
  have hga : ∀ groups, groupsAfter groups = (normalMappingResolveGroup (mkRun groups)).1 :=
    fun groups => rfl
  refine ⟨?_, ?_, ?_⟩
  · intro groups hnone
    have hnm : ¬ normal_mapping_group_name ∈ groups.map (fun g => g.name) :=
      not_mem_names_of_lookup_none groups normal_mapping_group_name hnone
    have h1 : groupsAfter groups = groups ++ [normalMappingGroup normal_mapping_group_name] := by
      rw [hga]
      unfold normalMappingResolveGroup
      simp only [mkRun]
      simp only [hnone]
      simp [uniquifyName, hnm]
    refine ⟨h1, ?_⟩
    rw [h1]
    have hlook : lookupGroup (groups ++ [normalMappingGroup normal_mapping_group_name])
        normal_mapping_group_name = some (normalMappingGroup normal_mapping_group_name) := by
      unfold lookupGroup
      rw [List.find?_append]
      unfold lookupGroup at hnone
      rw [hnone]
      simp [normalMappingGroup]
    rw [hga]
    unfold normalMappingResolveGroup
    simp only [mkRun]
    simp only [hlook, hshapeOK]
    simp
  · intro groups g hg hs
    rw [hga]
    unfold normalMappingResolveGroup
    simp only [mkRun]
    simp [hg, hs]
  · intro groups g hg hs
    refine ⟨uniquifyName (groups.map (fun g2 => g2.name)) normal_mapping_group_name, ?_⟩
    rw [hga]
    unfold normalMappingResolveGroup
    simp only [mkRun]
    simp [hg, hs]

/-- C2 witness: starting from an empty library, the first run creates
the group under the reserved name and the second run reuses it. -/
theorem C2_witness :
    groupsAfter [] = [normalMappingGroup normal_mapping_group_name] ∧
    groupsAfter (groupsAfter []) = [normalMappingGroup normal_mapping_group_name] := by
  have h := C2_idempotent_group_creation.1 [] (by rfl)
  simpa using h

/-- C7 counterexample: a run whose resolved component set is empty does
not fail at all: it returns FINISHED and leaves a new material in the
host (the code has no check for an empty component set and no
NoUsableComponents error exists anywhere in it). -/
theorem C7_counterexample :
    runStatus (executeModel cfgDefault "arch.zip" "T" (Except.ok []) (fun _ => true) host0) =
      some "FINISHED" ∧
    runMaterialCount (executeModel cfgDefault "arch.zip" "T" (Except.ok []) (fun _ => true)
      host0) = 1 := by
  constructor
  · rfl
  · rfl

/-- C7 amended: when no extracted file yields a wanted, recognized map,
the run does not fail with any error: it completes with FINISHED and
produces a material containing only the backbone nodes (texture
coordinates, mapping, reroute, shader, output) with no texture node and
no shader-input edge. -/
theorem C7_empty_components_material (cfg : Config) (fp td : String) (files : List String)
    (loadOk : String → Bool) (host : Host) (st : RState)
    (hres : resolveComponents cfg td files = Except.ok st)
    (hempty : ∀ k, st.components k = none) :
    executeModel cfg fp td (Except.ok files) loadOk host =
      Except.ok
        (⟨host.materials ++
            [⟨splitextStem (basenamePy fp),
              [⟨0, "ShaderNodeTexCoord", none, none, none⟩,
               ⟨1, "ShaderNodeMapping", none, none, none⟩,
               ⟨2, "NodeReroute", none, none, none⟩,
               ⟨3, "ShaderNodeBsdfPrincipled", none, none, none⟩,
               ⟨4, "ShaderNodeOutputMaterial", none, none, none⟩],
              [⟨0, Slot.named "UV", 1, Slot.named "Vector"⟩,
               ⟨1, Slot.named "Vector", 2, Slot.idx 0⟩,
               ⟨3, Slot.idx 0, 4, Slot.idx 0⟩],
              "BUMP"⟩],
          host.node_groups, host.images, host.textures⟩, "FINISHED") := by
  have hcf : st.components = fun _ => none := funext hempty
  simp only [executeModel, hres]
  rw [hcf]
  simp [buildPhase, newNode, addLink, wireAll, wireMap, finishPhase, dispMaterialStep,
    dispTextureStep, commitHost, Except.bind]

/-- C7 amended witness: the empty archive yields the backbone-only
material and FINISHED. -/
theorem C7_witness :
    executeModel cfgDefault "arch.zip" "T" (Except.ok []) (fun _ => true) host0 =
      Except.ok
        (⟨[⟨"arch",
              [⟨0, "ShaderNodeTexCoord", none, none, none⟩,
               ⟨1, "ShaderNodeMapping", none, none, none⟩,
               ⟨2, "NodeReroute", none, none, none⟩,
               ⟨3, "ShaderNodeBsdfPrincipled", none, none, none⟩,
               ⟨4, "ShaderNodeOutputMaterial", none, none, none⟩],
              [⟨0, Slot.named "UV", 1, Slot.named "Vector"⟩,
               ⟨1, Slot.named "Vector", 2, Slot.idx 0⟩,
               ⟨3, Slot.idx 0, 4, Slot.idx 0⟩],
              "BUMP"⟩],
          [], [], []⟩, "FINISHED") := by
  have h := C7_empty_components_material cfgDefault "arch.zip" "T" [] (fun _ => true) host0
    ⟨fun _ => none, none⟩ rfl (fun _ => rfl)
  simpa [host0] using h

/-- C8 counterexample: an image-load failure during synthesis escapes
after the material has been created, leaving the partially built
material behind in the host. -/
theorem C8_counterexample :
    runErrorOf (executeModel cfgDefault "arch.zip" "T" (Except.ok ["rock_diff_2k.png"])
        (fun _ => false) host0) = some (RunError.LoadFailed "T/rock_diff_2k.png") ∧
    runMaterialCount (executeModel cfgDefault "arch.zip" "T" (Except.ok ["rock_diff_2k.png"])
        (fun _ => false) host0) = 1 :=
  ⟨rfl, rfl⟩

/-- load_image can only escape with a load failure or a dictionary miss. -/
theorem load_image_error_kind (loadOk : String → Bool) (mat : String)
    (comps : MAP → Option String) (m : MAP) (st st1 : BState) (e : RunError)
    (h : load_image loadOk mat comps m st = Except.error (e, st1)) :
    (∃ p, e = RunError.LoadFailed p) ∨ (∃ s, e = RunError.KeyError s) := by
  unfold load_image at h
  cases hc : comps m with
  | none =>
    simp only [hc, Except.error.injEq, Prod.mk.injEq] at h
    exact Or.inr ⟨"components", h.1.symm⟩
  | some p =>
    simp only [hc] at h
    by_cases hl : loadOk p = true
    · rw [if_pos hl] at h
      exact absurd h (by simp)
    · rw [if_neg hl] at h
      simp only [Except.error.injEq, Prod.mk.injEq] at h
      exact Or.inl ⟨p, h.1.symm⟩

/-- new_image_texture_node inherits load_image's error kinds. -/
theorem new_image_texture_node_error_kind (loadOk : String → Bool) (mat : String)
    (comps : MAP → Option String) (fo : Nat) (m : MAP) (st st1 : BState) (e : RunError)
    (h : new_image_texture_node loadOk mat comps fo m st = Except.error (e, st1)) :
    (∃ p, e = RunError.LoadFailed p) ∨ (∃ s, e = RunError.KeyError s) := by
  unfold new_image_texture_node at h
  cases hl : load_image loadOk mat comps m st with
  | error ep =>
    obtain ⟨e2, s2⟩ := ep
    simp only [hl, Except.error.injEq, Prod.mk.injEq] at h
    obtain ⟨he, _⟩ := h
    subst he
    exact load_image_error_kind loadOk mat comps m st s2 e2 hl
  | ok r =>
    obtain ⟨img, st2⟩ := r
    simp only [hl] at h
    exact absurd h (by simp)

/-- wireMap can only escape with a load failure or a dictionary miss. -/
theorem wireMap_error_kind (loadOk : String → Bool) (mat : String)
    (comps : MAP → Option String) (fo ms : Nat) (m : MAP) (st st1 : BState) (e : RunError)
    (h : wireMap loadOk mat comps fo ms m st = Except.error (e, st1)) :
    (∃ p, e = RunError.LoadFailed p) ∨ (∃ s, e = RunError.KeyError s) := by
  unfold wireMap at h
  cases hc : comps m with
  | none => simp [hc] at h
  | some p =>
    simp only [hc] at h
    cases hn : new_image_texture_node loadOk mat comps fo m st with
    | error ep =>
      obtain ⟨e2, s2⟩ := ep
      simp only [hn, Except.error.injEq, Prod.mk.injEq] at h
      obtain ⟨he, _⟩ := h
      subst he
      exact new_image_texture_node_error_kind loadOk mat comps fo m st s2 e2 hn
    | ok r =>
      obtain ⟨tid, st2⟩ := r
      simp only [hn] at h
      cases hpn : m.principled_bsdf_input_name with
      | some nm => simp [hpn] at h
      | none =>
        simp only [hpn, Except.error.injEq, Prod.mk.injEq] at h
        exact Or.inr ⟨"principled_bsdf_input_name", h.1.symm⟩

/-- wireAll can only escape with a load failure or a dictionary miss. -/
theorem wireAll_error_kind (loadOk : String → Bool) (mat : String)
    (comps : MAP → Option String) (fo ms : Nat) :
    ∀ (maps : List MAP) (st st1 : BState) (e : RunError),
      wireAll loadOk mat comps fo ms maps st = Except.error (e, st1) →
      (∃ p, e = RunError.LoadFailed p) ∨ (∃ s, e = RunError.KeyError s) := by
  intro maps
  induction maps with
  | nil =>
    intro st st1 e h
    exact absurd h (by simp [wireAll])
  | cons m rest ih =>
    intro st st1 e h
    rw [wireAll] at h
    cases hw : wireMap loadOk mat comps fo ms m st with
    | error ep =>
      obtain ⟨e2, s2⟩ := ep
      simp only [hw, Except.error.injEq, Prod.mk.injEq] at h
      obtain ⟨he, _⟩ := h
      subst he
      exact wireMap_error_kind loadOk mat comps fo ms m st s2 e2 hw
    | ok st2 =>
      simp only [hw] at h
      exact ih st2 st1 e h

/-- dispMaterialStep can only escape with a load failure or a
dictionary miss. -/
theorem dispMaterialStep_error_kind (cfg : Config) (mat : String)
    (comps : MAP → Option String) (loadOk : String → Bool) (fo mo : Nat)
    (st9 st1 : BState) (e : RunError)
    (h : dispMaterialStep cfg mat comps loadOk fo mo st9 = Except.error (e, st1)) :
    (∃ p, e = RunError.LoadFailed p) ∨ (∃ s, e = RunError.KeyError s) := by
  unfold dispMaterialStep at h
  by_cases h1 : cfg.use_displacement = DispMode.material ∧ (comps MAP.DISPLACEMENT).isSome = true
  · rw [if_pos h1] at h
    cases hn : new_image_texture_node loadOk mat comps fo MAP.DISPLACEMENT st9 with
    | error ep =>
      obtain ⟨e2, s2⟩ := ep
      simp only [hn, Except.error.injEq, Prod.mk.injEq] at h
      obtain ⟨he, _⟩ := h
      subst he
      exact new_image_texture_node_error_kind loadOk mat comps fo MAP.DISPLACEMENT st9 s2 e2 hn
    | ok r =>
      obtain ⟨tid, stA⟩ := r
      simp only [hn] at h
      exact absurd h (by simp)
  · rw [if_neg h1] at h
    exact absurd h (by simp)

/-- dispTextureStep can only escape with a load failure or a
dictionary miss. -/
theorem dispTextureStep_error_kind (cfg : Config) (mat : String)
    (comps : MAP → Option String) (loadOk : String → Bool) (r : BState × String)
    (st1 : BState) (e : RunError)
    (h : dispTextureStep cfg mat comps loadOk r = Except.error (e, st1)) :
    (∃ p, e = RunError.LoadFailed p) ∨ (∃ s, e = RunError.KeyError s) := by
  unfold dispTextureStep at h
  by_cases h1 : cfg.use_displacement = DispMode.texture ∧ (comps MAP.DISPLACEMENT).isSome = true
  · rw [if_pos h1] at h
    cases hl : load_image loadOk mat comps MAP.DISPLACEMENT r.1 with
    | error ep =>
      obtain ⟨e2, s2⟩ := ep
      simp only [hl, Except.error.injEq, Prod.mk.injEq] at h
      obtain ⟨he, _⟩ := h
      subst he
      exact load_image_error_kind loadOk mat comps MAP.DISPLACEMENT r.1 s2 e2 hl
    | ok r2 =>
      obtain ⟨img, stC⟩ := r2
      simp only [hl] at h
      exact absurd h (by simp)
  · rw [if_neg h1] at h
    exact absurd h (by simp)

/-- A bind of two computations whose errors are load failures or
dictionary misses can only escape with those kinds. -/
theorem except_bind_error_kind {α β : Type}
    (x : Except (RunError × BState) α) (f : α → Except (RunError × BState) β)
    (hx : ∀ e2 s2, x = Except.error (e2, s2) →
      (∃ p, e2 = RunError.LoadFailed p) ∨ (∃ s, e2 = RunError.KeyError s))
    (hf : ∀ r e2 s2, f r = Except.error (e2, s2) →
      (∃ p, e2 = RunError.LoadFailed p) ∨ (∃ s, e2 = RunError.KeyError s))
    (e : RunError) (st1 : BState) (h : x.bind f = Except.error (e, st1)) :
    (∃ p, e = RunError.LoadFailed p) ∨ (∃ s, e = RunError.KeyError s) := by
  cases x with
  | error ep =>
    obtain ⟨e2, s2⟩ := ep
    simp only [Except.bind, Except.error.injEq, Prod.mk.injEq] at h
    obtain ⟨he, _⟩ := h
    subst he
    exact hx e2 s2 rfl
  | ok r =>
    simp only [Except.bind] at h
    exact hf r e st1 h

/-- finishPhase can only escape with a load failure or a dictionary
miss. -/
theorem finishPhase_error_kind (cfg : Config) (mat : String)
    (comps : MAP → Option String) (loadOk : String → Bool) (fo ms : Nat)
    (st7 st1 : BState) (e : RunError)
    (h : finishPhase cfg mat comps loadOk fo ms st7 = Except.error (e, st1)) :
    (∃ p, e = RunError.LoadFailed p) ∨ (∃ s, e = RunError.KeyError s) := by
  simp only [finishPhase, newNode, addLink] at h
  exact except_bind_error_kind _ _
    (fun e2 s2 hh => dispMaterialStep_error_kind cfg mat comps loadOk fo _ _ s2 e2 hh)
    (fun r e2 s2 hh => dispTextureStep_error_kind cfg mat comps loadOk r s2 e2 hh)
    e st1 h

/-- buildPhase can only escape with a load failure or a dictionary
miss: the resolution assertion and extraction failures happen before
graph synthesis begins. -/
theorem buildPhase_error_kind (cfg : Config) (mat : String)
    (comps : MAP → Option String) (loadOk : String → Bool)
    (imgs : List Image) (grps : List NodeGroup) (txs : List TextureRes)
    (st1 : BState) (e : RunError)
    (h : buildPhase cfg mat comps loadOk imgs grps txs = Except.error (e, st1)) :
    (∃ p, e = RunError.LoadFailed p) ∨ (∃ s, e = RunError.KeyError s) := by
  simp only [buildPhase, newNode, addLink] at h
  exact except_bind_error_kind _ _
    (fun e2 s2 hh => wireAll_error_kind loadOk mat comps _ _ _ _ s2 e2 hh)
    (fun r e2 s2 hh => finishPhase_error_kind cfg mat comps loadOk _ _ r s2 e2 hh)
    e st1 h

/-- C8 amended: extraction and resolver errors escape before the
material is created, so they leave the host unchanged — but a
synthesizer error (an image-load failure) escapes after material
creation, leaving exactly one new, partially built material exposed in
the host; the code removes nothing on failure. -/
theorem C8_partial_material (cfg : Config) (fp td : String)
    (ext : Except String (List String)) (loadOk : String → Bool) (host h2 : Host) :
    (executeModel cfg fp td ext loadOk host = Except.error (RunError.InconsistentRes, h2) →
      h2 = host) ∧
    (∀ msg, executeModel cfg fp td ext loadOk host =
        Except.error (RunError.ExtractionFailed msg, h2) → h2 = host) ∧
    (∀ p, executeModel cfg fp td ext loadOk host =
        Except.error (RunError.LoadFailed p, h2) →
      h2.materials.length = host.materials.length + 1) := by
  cases ext with
  | error msg =>
    refine ⟨fun h => ?_, fun msg2 h => ?_, fun p h => ?_⟩
    · simp [executeModel] at h
    · simp only [executeModel, Except.error.injEq, Prod.mk.injEq] at h
      exact h.2.symm
    · simp [executeModel] at h
  | ok files =>
    cases hres : resolveComponents cfg td files with
    | error eR =>
      cases eR
      refine ⟨fun h => ?_, fun msg h => ?_, fun p h => ?_⟩
      · simp only [executeModel, hres, Except.error.injEq, Prod.mk.injEq] at h
        exact h.2.symm
      · simp [executeModel, hres] at h
      · simp [executeModel, hres] at h
    | ok rst =>
      cases hb : buildPhase cfg (splitextStem (basenamePy fp))
          (if (rst.components MAP.NORMAL).isSome = true then
            fun m => if m = MAP.BUMP then none else rst.components m
          else rst.components) loadOk host.images host.node_groups host.textures with
      | error ep =>
        obtain ⟨e2, s2⟩ := ep
        have hkind := buildPhase_error_kind cfg (splitextStem (basenamePy fp)) _ loadOk
          host.images host.node_groups host.textures s2 e2 hb
        refine ⟨fun h => ?_, fun msg h => ?_, fun p h => ?_⟩
        · simp only [executeModel, hres, hb, Except.error.injEq, Prod.mk.injEq] at h
          rcases hkind with ⟨p2, rfl⟩ | ⟨s3, rfl⟩ <;> simp at h
        · simp only [executeModel, hres, hb, Except.error.injEq, Prod.mk.injEq] at h
          rcases hkind with ⟨p2, rfl⟩ | ⟨s3, rfl⟩ <;> simp at h
        · simp only [executeModel, hres, hb, Except.error.injEq, Prod.mk.injEq] at h
          obtain ⟨_, hcommit⟩ := h
          rw [← hcommit]
          simp [commitHost]
      | ok r =>
        obtain ⟨stD, dm⟩ := r
        refine ⟨fun h => ?_, fun msg h => ?_, fun p h => ?_⟩ <;>
          simp [executeModel, hres, hb] at h

/-- C8 amended witness: a resolver failure aborts with the host exactly
as it was (no material created). -/
theorem C8_witness :
    ∃ herr, executeModel cfgDefault "arch.zip" "T"
        (Except.ok ["a_nor_2k.png", "b_nor_4k.png"]) (fun _ => true) host0 =
      Except.error (RunError.InconsistentRes, herr) ∧ herr = host0 := by
  have he : executeModel cfgDefault "arch.zip" "T"
      (Except.ok ["a_nor_2k.png", "b_nor_4k.png"]) (fun _ => true) host0 =
      Except.error (RunError.InconsistentRes, host0) := by rfl
  exact ⟨host0, he, (C8_partial_material cfgDefault "arch.zip" "T"
    (Except.ok ["a_nor_2k.png", "b_nor_4k.png"]) (fun _ => true) host0 host0).1 he⟩

/-- String append is left-cancellative. -/
theorem string_append_cancel_left (s t u : String) (h : s ++ t = s ++ u) : t = u := by
  have hd := congrArg String.data h
  rw [String.data_append, String.data_append] at hd
  cases t with
  | mk td =>
    cases u with
    | mk ud =>
      exact congrArg String.mk (List.append_cancel_left hd)

/-- Synthetic image names with distinct tokens are distinct. -/
theorem name_str_ne_bump (mat x : String) (hx : x ≠ "bump") :
    mat ++ "_" ++ x ≠ mat ++ "_" ++ "bump" :=
  fun h => hx (string_append_cancel_left (mat ++ "_") x "bump" h)

/-- Bound-image references with distinct tokens are distinct. -/
theorem name_ne_bump (mat x : String) (hx : x ≠ "bump") :
    some (mat ++ "_" ++ x) ≠ some (mat ++ "_" ++ "bump") := by
  intro h
  injection h with h
  exact name_str_ne_bump mat x hx h

/-- StepOut composes along consecutive synthesis steps. -/
theorem stepOut_trans {mat : String} {xs ys : List String} {sid : Nat} {a b c : BState}
    (h1 : StepOut mat xs sid a b) (h2 : StepOut mat ys sid b c) :
    StepOut mat (xs ++ ys) sid a c := by
  obtain ⟨n1, l1, nd1, ni1, im1⟩ := h1
  obtain ⟨n2, l2, nd2, ni2, im2⟩ := h2
  refine ⟨by rw [n2, n1], fun l hl => l2 l (l1 l hl), fun nd hnd => nd2 nd (nd1 nd hnd), ?_, ?_⟩
  · intro nd hnd
    rcases ni2 nd hnd with h | h | ⟨x, hx, hxe⟩
    · rcases ni1 nd h with h2 | h2 | ⟨x, hx, hxe⟩
      · exact Or.inl h2
      · exact Or.inr (Or.inl h2)
      · exact Or.inr (Or.inr ⟨x, List.mem_append_left _ hx, hxe⟩)
    · exact Or.inr (Or.inl h)
    · exact Or.inr (Or.inr ⟨x, List.mem_append_right _ hx, hxe⟩)
  · intro img himg
    rcases im2 img himg with h | ⟨x, hx, hxe⟩
    · rcases im1 img h with h2 | ⟨x, hx, hxe⟩
      · exact Or.inl h2
      · exact Or.inr ⟨x, List.mem_append_left _ hx, hxe⟩
    · exact Or.inr ⟨x, List.mem_append_right _ hx, hxe⟩

/-- add_normal_mapping_nodes spelled out as an equation. -/
theorem add_normal_mapping_nodes_eq (st : BState) (texN : Nat) (texS : Slot) :
    add_normal_mapping_nodes st texN texS =
      (⟨st.nodes ++ [⟨st.nextId, "ShaderNodeGroup", none,
          some (normalMappingResolveGroup st).2.2, none⟩],
        st.links ++ [⟨texN, texS, st.nextId, Slot.idx 0⟩],
        st.images, (normalMappingResolveGroup st).1, (normalMappingResolveGroup st).2.1,
        st.textures, st.nextId + 1⟩, st.nextId, Slot.idx 0) := rfl

/-- An absent component's loop iteration changes nothing (the loop body
is guarded by `if map in components`). -/
theorem wireMap_skip (loadOk : String → Bool) (mat : String) (comps : MAP → Option String)
    (fo sid : Nat) (m : MAP) (st : BState) (hc : comps m = none) :
    wireMap loadOk mat comps fo sid m st = Except.ok st := by
  simp [wireMap, hc]

/-- A loop iteration for a plain kind (no conversion subgraph) succeeds
and only adds its texture node, its fan-in edge and one edge into a
non-Normal shader input. -/
theorem wireMap_plain (m : MAP) (nm : String) (mat : String) (comps : MAP → Option String)
    (fo sid : Nat) (st : BState)
    (hb : m ≠ MAP.BUMP) (hn : m ≠ MAP.NORMAL)
    (hpn : m.principled_bsdf_input_name = some nm) (hnm : nm ≠ "Normal") :
    ∃ st2, wireMap (fun _ => true) mat comps fo sid m st = Except.ok st2 ∧
      StepOut mat [m.namestr] sid st st2 := by
  cases hc : comps m with
  | none =>
    exact ⟨st, wireMap_skip _ mat comps fo sid m st hc, rfl, fun l hl => hl,
      fun nd hnd => hnd, fun nd hnd => Or.inl hnd, fun img h => Or.inl h⟩
  | some p =>
    refine ⟨⟨st.nodes ++
        [⟨st.nextId, "ShaderNodeTexImage", some (mat ++ "_" ++ m.namestr), none, none⟩],
        (st.links ++ [⟨fo, Slot.idx 0, st.nextId, Slot.idx 0⟩]) ++
          [⟨st.nextId, Slot.named "Color", sid, Slot.named nm⟩],
        st.images ++ [mk_image mat m p], st.groups, st.group_name, st.textures,
        st.nextId + 1⟩, ?_, ?_, ?_, ?_, ?_, ?_⟩
    · simp [wireMap, hc, new_image_texture_node, load_image, newNode, addLink, mk_image,
        hb, hn, hpn]
    · simp [normalLinks, List.filter_append, hnm]
    · intro l hl
      exact List.mem_append_left _ (List.mem_append_left _ hl)
    · intro nd hnd
      exact List.mem_append_left _ hnd
    · intro nd hnd
      rcases List.mem_append.mp hnd with h | h
      · exact Or.inl h
      · rw [List.mem_singleton] at h
        subst h
        exact Or.inr (Or.inr ⟨m.namestr, List.mem_singleton_self _, rfl⟩)
    · intro img himg
      rcases List.mem_append.mp himg with h | h
      · exact Or.inl h
      · rw [List.mem_singleton] at h
        subst h
        exact Or.inr ⟨m.namestr, List.mem_singleton_self _, by simp [mk_image]⟩

/-- The Normal-map loop iteration succeeds: it adds the texture node,
the fan-in edge, the rotation-subgraph group node fed from the texture's
Color output, and exactly one new edge into the shader's Normal input,
sourced at the group node. -/
theorem wireMap_normal (mat : String) (comps : MAP → Option String) (fo sid : Nat)
    (st : BState) (p : String) (hc : comps MAP.NORMAL = some p) :
    ∃ st2, wireMap (fun _ => true) mat comps fo sid MAP.NORMAL st = Except.ok st2 ∧
      normalLinks sid st2.links = normalLinks sid st.links ++
        [⟨st.nextId + 1, Slot.idx 0, sid, Slot.named "Normal"⟩] ∧
      (∀ l ∈ st.links, l ∈ st2.links) ∧
      (∀ nd ∈ st.nodes, nd ∈ st2.nodes) ∧
      (∃ gref, (⟨st.nextId + 1, "ShaderNodeGroup", none, some gref, none⟩ : Node)
        ∈ st2.nodes) ∧
      (⟨st.nextId, "ShaderNodeTexImage", some (mat ++ "_" ++ "nor"), none, none⟩ : Node)
        ∈ st2.nodes ∧
      (⟨st.nextId, Slot.named "Color", st.nextId + 1, Slot.idx 0⟩ : Link) ∈ st2.links ∧
      (∀ nd ∈ st2.nodes, nd ∈ st.nodes ∨ nd.imageName = none ∨
        nd.imageName = some (mat ++ "_" ++ "nor")) ∧
      (∀ img ∈ st2.images, img ∈ st.images ∨ img.name = mat ++ "_" ++ "nor") := by
  have hw : wireMap (fun _ => true) mat comps fo sid MAP.NORMAL st = Except.ok
      ⟨(st.nodes ++
          [⟨st.nextId, "ShaderNodeTexImage", some (mat ++ "_" ++ "nor"), none, none⟩]) ++
        [⟨st.nextId + 1, "ShaderNodeGroup", none,
          some (normalMappingResolveGroup
            ⟨st.nodes ++
              [⟨st.nextId, "ShaderNodeTexImage", some (mat ++ "_" ++ "nor"), none, none⟩],
              st.links ++ [⟨fo, Slot.idx 0, st.nextId, Slot.idx 0⟩],
              st.images ++ [mk_image mat MAP.NORMAL p], st.groups, st.group_name,
              st.textures, st.nextId + 1⟩).2.2, none⟩],
        ((st.links ++ [⟨fo, Slot.idx 0, st.nextId, Slot.idx 0⟩]) ++
          [⟨st.nextId, Slot.named "Color", st.nextId + 1, Slot.idx 0⟩]) ++
          [⟨st.nextId + 1, Slot.idx 0, sid, Slot.named "Normal"⟩],
        st.images ++ [mk_image mat MAP.NORMAL p],
        (normalMappingResolveGroup
          ⟨st.nodes ++
            [⟨st.nextId, "ShaderNodeTexImage", some (mat ++ "_" ++ "nor"), none, none⟩],
            st.links ++ [⟨fo, Slot.idx 0, st.nextId, Slot.idx 0⟩],
            st.images ++ [mk_image mat MAP.NORMAL p], st.groups, st.group_name,
            st.textures, st.nextId + 1⟩).1,
        (normalMappingResolveGroup
          ⟨st.nodes ++
            [⟨st.nextId, "ShaderNodeTexImage", some (mat ++ "_" ++ "nor"), none, none⟩],
            st.links ++ [⟨fo, Slot.idx 0, st.nextId, Slot.idx 0⟩],
            st.images ++ [mk_image mat MAP.NORMAL p], st.groups, st.group_name,
            st.textures, st.nextId + 1⟩).2.1,
        st.textures, st.nextId + 1 + 1⟩ := by
    simp [wireMap, hc, new_image_texture_node, load_image, newNode, addLink,
      add_normal_mapping_nodes_eq, mk_image, MAP.namestr, MAP.principled_bsdf_input_name]
  refine ⟨_, hw, ?_, ?_, ?_, ?_, ?_, ?_, ?_, ?_⟩
  · simp [normalLinks, List.filter_append]
  · intro l hl
    exact List.mem_append_left _ (List.mem_append_left _ (List.mem_append_left _ hl))
  · intro nd hnd
    exact List.mem_append_left _ (List.mem_append_left _ hnd)
  · exact ⟨_, List.mem_append_right _ (List.mem_singleton_self _)⟩
  · exact List.mem_append_left _ (List.mem_append_right _ (List.mem_singleton_self _))
  · exact List.mem_append_left _ (List.mem_append_right _ (List.mem_singleton_self _))
  · intro nd hnd
    rcases List.mem_append.mp hnd with h | h
    · rcases List.mem_append.mp h with h2 | h2
      · exact Or.inl h2
      · rw [List.mem_singleton] at h2
        subst h2
        exact Or.inr (Or.inr rfl)
    · rw [List.mem_singleton] at h
      subst h
      exact Or.inr (Or.inl rfl)
  · intro img himg
    rcases List.mem_append.mp himg with h | h
    · exact Or.inl h
    · rw [List.mem_singleton] at h
      subst h
      exact Or.inr rfl

/-- finishPhase always succeeds when every load succeeds, adds no edge
into the shader's Normal input, preserves existing nodes, links and
images, and only adds the material-output node and (in material
displacement mode) a displacement texture node and image. -/
theorem finishPhase_ok (cfg : Config) (mat : String) (comps : MAP → Option String)
    (fo ms : Nat) (st7 : BState) :
    ∃ stD dm, finishPhase cfg mat comps (fun _ => true) fo ms st7 = Except.ok (stD, dm) ∧
      normalLinks ms stD.links = normalLinks ms st7.links ∧
      (∀ l ∈ st7.links, l ∈ stD.links) ∧
      (∀ nd ∈ st7.nodes, nd ∈ stD.nodes) ∧
      (∀ nd ∈ stD.nodes, nd ∈ st7.nodes ∨ nd.imageName = none ∨
        nd.imageName = some (mat ++ "_" ++ "disp")) ∧
      (∀ img ∈ stD.images, img ∈ st7.images ∨ img.name = mat ++ "_" ++ "disp") := by
  by_cases h1 : cfg.use_displacement = DispMode.material ∧ (comps MAP.DISPLACEMENT).isSome = true
  · obtain ⟨pd, hpd⟩ := Option.isSome_iff_exists.mp h1.2
    have hnt : ¬(cfg.use_displacement = DispMode.texture ∧
        (comps MAP.DISPLACEMENT).isSome = true) := by
      rw [h1.1]
      simp
    have hw : finishPhase cfg mat comps (fun _ => true) fo ms st7 = Except.ok
        (⟨(st7.nodes ++ [⟨st7.nextId, "ShaderNodeOutputMaterial", none, none, none⟩]) ++
            [⟨st7.nextId + 1, "ShaderNodeTexImage", some (mat ++ "_" ++ "disp"), none, none⟩],
          ((st7.links ++ [⟨ms, Slot.idx 0, st7.nextId, Slot.idx 0⟩]) ++
            [⟨fo, Slot.idx 0, st7.nextId + 1, Slot.idx 0⟩]) ++
            [⟨st7.nextId + 1, Slot.named "Color", st7.nextId, Slot.named "Displacement"⟩],
          st7.images ++ [mk_image mat MAP.DISPLACEMENT pd],
          st7.groups, st7.group_name, st7.textures, st7.nextId + 1 + 1⟩, "BOTH") := by
      simp [finishPhase, dispMaterialStep, dispTextureStep, newNode, addLink, Except.bind,
        new_image_texture_node, load_image, mk_image, MAP.namestr, h1, hpd, hnt]
    refine ⟨_, _, hw, ?_, ?_, ?_, ?_, ?_⟩
    · simp [normalLinks, List.filter_append]
    · intro l hl
      exact List.mem_append_left _ (List.mem_append_left _ (List.mem_append_left _ hl))
    · intro nd hnd
      exact List.mem_append_left _ (List.mem_append_left _ hnd)
    · intro nd hnd
      rcases List.mem_append.mp hnd with h | h
      · rcases List.mem_append.mp h with h2 | h2
        · exact Or.inl h2
        · rw [List.mem_singleton] at h2
          subst h2
          exact Or.inr (Or.inl rfl)
      · rw [List.mem_singleton] at h
        subst h
        exact Or.inr (Or.inr rfl)
    · intro img himg
      rcases List.mem_append.mp himg with h | h
      · exact Or.inl h
      · rw [List.mem_singleton] at h
        subst h
        exact Or.inr rfl
  · by_cases h2 : cfg.use_displacement = DispMode.texture ∧
        (comps MAP.DISPLACEMENT).isSome = true
    · obtain ⟨pd, hpd⟩ := Option.isSome_iff_exists.mp h2.2
      have hw : finishPhase cfg mat comps (fun _ => true) fo ms st7 = Except.ok
          (⟨st7.nodes ++ [⟨st7.nextId, "ShaderNodeOutputMaterial", none, none, none⟩],
            st7.links ++ [⟨ms, Slot.idx 0, st7.nextId, Slot.idx 0⟩],
            st7.images ++ [mk_image mat MAP.DISPLACEMENT pd],
            st7.groups, st7.group_name,
            st7.textures ++ [⟨mat ++ "_" ++ "disp", mat ++ "_" ++ "disp"⟩],
            st7.nextId + 1⟩, "BUMP") := by
        simp [finishPhase, dispMaterialStep, dispTextureStep, newNode, addLink, Except.bind,
          load_image, mk_image, MAP.namestr, h1, h2, hpd]
      refine ⟨_, _, hw, ?_, ?_, ?_, ?_, ?_⟩
      · simp [normalLinks, List.filter_append]
      · intro l hl
        exact List.mem_append_left _ hl
      · intro nd hnd
        exact List.mem_append_left _ hnd
      · intro nd hnd
        rcases List.mem_append.mp hnd with h | h
        · exact Or.inl h
        · rw [List.mem_singleton] at h
          subst h
          exact Or.inr (Or.inl rfl)
      · intro img himg
        rcases List.mem_append.mp himg with h | h
        · exact Or.inl h
        · rw [List.mem_singleton] at h
          subst h
          exact Or.inr rfl
    · have hw : finishPhase cfg mat comps (fun _ => true) fo ms st7 = Except.ok
          (⟨st7.nodes ++ [⟨st7.nextId, "ShaderNodeOutputMaterial", none, none, none⟩],
            st7.links ++ [⟨ms, Slot.idx 0, st7.nextId, Slot.idx 0⟩],
            st7.images, st7.groups, st7.group_name, st7.textures, st7.nextId + 1⟩,
            "BUMP") := by
        simp [finishPhase, dispMaterialStep, dispTextureStep, newNode, addLink, Except.bind,
          h1, h2]
      refine ⟨_, _, hw, ?_, ?_, ?_, ?_, ?_⟩
      · simp [normalLinks, List.filter_append]
      · intro l hl
        exact List.mem_append_left _ hl
      · intro nd hnd
        exact List.mem_append_left _ hnd
      · intro nd hnd
        rcases List.mem_append.mp hnd with h | h
        · exact Or.inl h
        · rw [List.mem_singleton] at h
          subst h
          exact Or.inr (Or.inl rfl)
      · intro img himg
        exact Or.inl himg

/-- buildPhase laid out as the backbone followed by the component loop
and the finishing phase. -/
theorem buildPhase_eq (cfg : Config) (mat : String) (comps : MAP → Option String)
    (loadOk : String → Bool) (imgs : List Image) (grps : List NodeGroup)
    (txs : List TextureRes) :
    buildPhase cfg mat comps loadOk imgs grps txs =
      (wireAll loadOk mat comps 2 3
        [MAP.DIFFUSE, MAP.SPECULAR, MAP.ROUGHNESS, MAP.NORMAL, MAP.BUMP]
        (backboneState imgs grps txs)).bind
        (finishPhase cfg mat comps loadOk 2 3) := rfl

/-- C1: when both a Normal and a Bump component are resolved (present
and enabled), the synthesized graph wires exactly the Normal map —
image texture node, routed through the rotation-subgraph group node —
into the shader's Normal input (node 3), which therefore has exactly one
incoming edge; no image texture node bound to a bump image and no bump
image resource is ever created. -/
theorem C1_normal_preferred_over_bump (cfg : Config) (fp td : String) (files : List String)
    (host : Host) (st : RState) (pn pb : String)
    (hres : resolveComponents cfg td files = Except.ok st)
    (hN : st.components MAP.NORMAL = some pn)
    (hB : st.components MAP.BUMP = some pb) :
    ∃ host2 M gid tid,
      executeModel cfg fp td (Except.ok files) (fun _ => true) host =
        Except.ok (host2, "FINISHED") ∧
      host2.materials = host.materials ++ [M] ∧
      normalLinks 3 M.links = [⟨gid, Slot.idx 0, 3, Slot.named "Normal"⟩] ∧
      (∃ gname, (⟨gid, "ShaderNodeGroup", none, some gname, none⟩ : Node) ∈ M.nodes) ∧
      (⟨tid, "ShaderNodeTexImage", some (splitextStem (basenamePy fp) ++ "_" ++ "nor"),
        none, none⟩ : Node) ∈ M.nodes ∧
      (⟨tid, Slot.named "Color", gid, Slot.idx 0⟩ : Link) ∈ M.links ∧
      (∀ nd ∈ M.nodes, nd.imageName ≠ some (splitextStem (basenamePy fp) ++ "_" ++ "bump")) ∧
      (∀ img ∈ host2.images, img ∈ host.images ∨
        img.name ≠ splitextStem (basenamePy fp) ++ "_" ++ "bump") := by
  set mname := splitextStem (basenamePy fp) with hmname
  set comps : MAP → Option String :=
    fun m => if m = MAP.BUMP then none else st.components m with hcomps
  have hcN : comps MAP.NORMAL = some pn := by rw [hcomps]; simp [hN]
  have hcB : comps MAP.BUMP = none := by rw [hcomps]; simp
  obtain ⟨stA, hA, invA⟩ := wireMap_plain MAP.DIFFUSE "Base Color" mname comps 2 3
    (backboneState host.images host.node_groups host.textures) (by decide) (by decide) rfl
    (by decide)
  obtain ⟨stB2, hB2, invB⟩ := wireMap_plain MAP.SPECULAR "Specular" mname comps 2 3 stA
    (by decide) (by decide) rfl (by decide)
  obtain ⟨stC, hC2, invC⟩ := wireMap_plain MAP.ROUGHNESS "Roughness" mname comps 2 3 stB2
    (by decide) (by decide) rfl (by decide)
  obtain ⟨stN, hNw, hnlN, hlinkN, hnodeN, hgmem, htmem, hfeed, hndclass, himclass⟩ :=
    wireMap_normal mname comps 2 3 stC pn hcN
  have hBw := wireMap_skip (fun _ => true) mname comps 2 3 MAP.BUMP stN hcB
  obtain ⟨stD, dm, hF, hFnl, hFl, hFn, hFnc, hFim⟩ := finishPhase_ok cfg mname comps 2 3 stN
  have hwire : wireAll (fun _ => true) mname comps 2 3
      [MAP.DIFFUSE, MAP.SPECULAR, MAP.ROUGHNESS, MAP.NORMAL, MAP.BUMP]
      (backboneState host.images host.node_groups host.textures) = Except.ok stN := by
    simp only [wireAll, hA, hB2, hC2, hNw, hBw]
  have hbuild : buildPhase cfg mname comps (fun _ => true) host.images host.node_groups
      host.textures = Except.ok (stD, dm) := by
    rw [buildPhase_eq, hwire]
    simp only [Except.bind]
    exact hF
  have hexec : executeModel cfg fp td (Except.ok files) (fun _ => true) host =
      Except.ok (commitHost host mname dm stD, "FINISHED") := by
    simp only [executeModel, hres, hN, Option.isSome_some, eq_self_iff_true, if_true]
    rw [← hcomps, ← hmname, hbuild]
  have invABC := stepOut_trans (stepOut_trans invA invB) invC
  have hST6nl : normalLinks 3
      (backboneState host.images host.node_groups host.textures).links = [] := rfl
  have hST6nodes : ∀ nd ∈ (backboneState host.images host.node_groups host.textures).nodes,
      nd.imageName = none := by
    intro nd h
    simp [backboneState] at h
    rcases h with rfl | rfl | rfl | rfl <;> rfl
  refine ⟨commitHost host mname dm stD, ⟨mname, stD.nodes, stD.links, dm⟩, stC.nextId + 1,
    stC.nextId, hexec, rfl, ?_, ?_, ?_, ?_, ?_, ?_⟩
  · show normalLinks 3 stD.links = _
    rw [hFnl, hnlN, invC.1, invB.1, invA.1, hST6nl]
    rfl
  · obtain ⟨gref, hg⟩ := hgmem
    exact ⟨gref, hFn _ hg⟩
  · exact hFn _ htmem
  · exact hFl _ hfeed
  · intro nd hnd
    rcases hFnc nd hnd with h | h | h
    · rcases hndclass nd h with h2 | h2 | h2
      · rcases invABC.2.2.2.1 nd h2 with h3 | h3 | ⟨x, hx, hxe⟩
        · rw [hST6nodes nd h3]; simp
        · rw [h3]; simp
        · rw [hxe]
          refine name_ne_bump mname x ?_
          simp at hx
          rcases hx with rfl | rfl | rfl <;> decide
      · rw [h2]; simp
      · rw [h2]
        exact name_ne_bump mname "nor" (by decide)
    · rw [h]; simp
    · rw [h]
      exact name_ne_bump mname "disp" (by decide)
  · intro img himg
    rcases hFim img himg with h | h
    · rcases himclass img h with h2 | h2
      · rcases invABC.2.2.2.2 img h2 with h3 | ⟨x, hx, hxe⟩
        · exact Or.inl h3
        · refine Or.inr ?_
          rw [hxe]
          refine name_str_ne_bump mname x ?_
          simp at hx
          rcases hx with rfl | rfl | rfl <;> decide
      · exact Or.inr (by rw [h2]; exact name_str_ne_bump mname "nor" (by decide))
    · exact Or.inr (by rw [h]; exact name_str_ne_bump mname "disp" (by decide))

/-- C1 witness: an archive holding both a normal and a bump map (all
components enabled by the default configuration) synthesizes the Normal
route only. -/
theorem C1_witness :
    ∃ host2 M gid tid,
      executeModel cfgDefault "arch.zip" "T"
          (Except.ok ["rock_nor_2k.png", "rock_bump_2k.png"]) (fun _ => true) host0 =
        Except.ok (host2, "FINISHED") ∧
      host2.materials = host0.materials ++ [M] ∧
      normalLinks 3 M.links = [⟨gid, Slot.idx 0, 3, Slot.named "Normal"⟩] ∧
      (∃ gname, (⟨gid, "ShaderNodeGroup", none, some gname, none⟩ : Node) ∈ M.nodes) ∧
      (⟨tid, "ShaderNodeTexImage",
        some (splitextStem (basenamePy "arch.zip") ++ "_" ++ "nor"), none, none⟩ : Node)
        ∈ M.nodes ∧
      (⟨tid, Slot.named "Color", gid, Slot.idx 0⟩ : Link) ∈ M.links ∧
      (∀ nd ∈ M.nodes, nd.imageName ≠
        some (splitextStem (basenamePy "arch.zip") ++ "_" ++ "bump")) ∧
      (∀ img ∈ host2.images, img ∈ host0.images ∨
        img.name ≠ splitextStem (basenamePy "arch.zip") ++ "_" ++ "bump") := by
  cases h : resolveComponents cfgDefault "T" ["rock_nor_2k.png", "rock_bump_2k.png"] with
  | error e =>
    cases e
    have hne : componentsOf (resolveComponents cfgDefault "T"
        ["rock_nor_2k.png", "rock_bump_2k.png"]) MAP.NORMAL = some "T/rock_nor_2k.png" := by
      rfl
    rw [h] at hne
    exact absurd hne (by simp [componentsOf])
  | ok st =>
    have hN : st.components MAP.NORMAL = some "T/rock_nor_2k.png" := by
      have hc : componentsOf (resolveComponents cfgDefault "T"
          ["rock_nor_2k.png", "rock_bump_2k.png"]) MAP.NORMAL = some "T/rock_nor_2k.png" := by
        rfl
      rw [h] at hc
      exact hc
    have hB : st.components MAP.BUMP = some "T/rock_bump_2k.png" := by
      have hc : componentsOf (resolveComponents cfgDefault "T"
          ["rock_nor_2k.png", "rock_bump_2k.png"]) MAP.BUMP = some "T/rock_bump_2k.png" := by
        rfl
      rw [h] at hc
      exact hc
    exact C1_normal_preferred_over_bump cfgDefault "arch.zip" "T"
      ["rock_nor_2k.png", "rock_bump_2k.png"] host0 st "T/rock_nor_2k.png"
      "T/rock_bump_2k.png" h hN hB

/-- C3 amended witness: the later duplicate wins even with further
non-matching files after it. -/
theorem C3_witness :
    ∃ st2, resolveComponents cfgDefault "T"
        (["a_diff_1k.png"] ++ "b_diff_1k.png" :: ["c_rough_1k.png"]) = Except.ok st2 ∧
      st2.components MAP.DIFFUSE = some (joinPath "T" "b_diff_1k.png") := by
  cases h : resolveComponents cfgDefault "T"
      (["a_diff_1k.png"] ++ "b_diff_1k.png" :: ["c_rough_1k.png"]) with
  | error e =>
    cases e
    have hok : (resolveComponents cfgDefault "T"
        (["a_diff_1k.png"] ++ "b_diff_1k.png" :: ["c_rough_1k.png"])).isOk = true := by rfl
    rw [h] at hok
    exact absurd hok (by simp [Except.isOk, Except.toBool])
  | ok st2 =>
    refine ⟨st2, rfl, ?_⟩
    exact C3_last_occurrence_wins cfgDefault "T" ["a_diff_1k.png"] ["c_rough_1k.png"]
      "b_diff_1k.png" "diff" 1 MAP.DIFFUSE st2 h (by rfl) (by rfl) (by rfl)
      (by decide)

end ITM
